import Mathlib

set_option maxRecDepth 20000

/-
  Verification development for the VB6.tiny.clone scripting engine.

  The embedding models the Python sources `src/interpreter.py` (class
  VBInterpreter) and `src/runtime.py` (class VBJsonRuntime, VBContext and
  the ledger helpers).  Python dynamic values become the inductive `JValue`;
  Python in-place mutation of dict/list trees becomes explicit state
  passing (functions return the updated tree); Python exceptions that the
  interpreter does not catch become `Except.error (.pyExn msg)`; unbounded
  interpreter loops are driven by an explicit fuel parameter, whose
  exhaustion is the distinguished outcome `.outOfFuel` (never identified
  with a Python exception).  CPython `float` is modelled by the exact
  fraction type `Frac`; every numeric example appearing in the claims is a
  small decimal value on which binary floating point is exact, so the
  modelling is faithful on all inputs that the theorems touch.
-/

namespace VB6

/-! ## String helpers (models of the Python `str` operations used).
    Lean `String` in this toolchain wraps a `List Char`, so all helpers are
    written over `List Char` to keep every definition kernel-computable. -/

/-- Python `str.strip()` restricted to whitespace (the only form used). -/
def sTrim (s : String) : String :=
  ⟨(s.data.dropWhile Char.isWhitespace).reverse.dropWhile Char.isWhitespace |>.reverse⟩

/-- Python `str.upper()` (the scripts are ASCII). -/
def sUpper (s : String) : String :=
  ⟨s.data.map Char.toUpper⟩

/-- Python `s.startswith(p)`. -/
def sStartsWith (s p : String) : Bool :=
  p.data.isPrefixOf s.data

/-- Python `s.endswith(p)`. -/
def sEndsWith (s p : String) : Bool :=
  p.data.reverse.isPrefixOf s.data.reverse

/-- Python `p in s` (substring test). -/
def sContains (s p : String) : Bool :=
  decide (p.data <:+: s.data)

/-- Python `s[a:]`. -/
def sDrop (s : String) (a : Nat) : String :=
  ⟨s.data.drop a⟩

/-- Python `s[:a]`. -/
def sTake (s : String) (a : Nat) : String :=
  ⟨s.data.take a⟩

/-- Python slice `s[a:b]` with a possibly negative end index
    (only `s[1:-1]` and nonnegative slices occur in the source). -/
def sSlice (s : String) (a : Nat) (b : Int) : String :=
  let n : Nat := s.data.length
  let b' : Nat := if b < 0 then n - (-b).toNat else min b.toNat n
  ⟨(s.data.take b').drop a⟩

/-- One character of a Python string, `s[i]` for `0 ≤ i`, as an Option. -/
def sGet (s : String) (i : Nat) : Option Char :=
  s.data.get? i

/-- Non-overlapping left-to-right replacement, Python `s.replace(pat, rep)`.
    Fueled by the remaining length (the patterns used are nonempty). -/
def replaceAux (pat rep : List Char) : Nat → List Char → List Char
  | 0, cs => cs
  | _ + 1, [] => []
  | f + 1, c :: rest =>
    if pat ≠ [] ∧ pat.isPrefixOf (c :: rest) then
      rep ++ replaceAux pat rep f ((c :: rest).drop pat.length)
    else
      c :: replaceAux pat rep f rest

/-- Python `s.replace(pat, rep)`. -/
def sReplace (s pat rep : String) : String :=
  ⟨replaceAux pat.data rep.data s.data.length s.data⟩

/-- Python `s.split(sep)` for a nonempty separator. -/
def splitAux (sep : List Char) : Nat → List Char → List Char → List (List Char)
  | 0, buf, cs => [buf.reverse ++ cs]
  | _ + 1, buf, [] => [buf.reverse]
  | f + 1, buf, c :: rest =>
    if sep ≠ [] ∧ sep.isPrefixOf (c :: rest) then
      buf.reverse :: splitAux sep f [] ((c :: rest).drop sep.length)
    else
      splitAux sep f (c :: buf) rest

/-- Python `s.split(sep)`. -/
def sSplit (s sep : String) : List String :=
  (splitAux sep.data s.data.length [] s.data).map (⟨·⟩)

/-- Python `s.rfind(pat)`: index of the last occurrence, `none` if absent. -/
def sRFind (s pat : String) : Option Nat :=
  ((List.range (s.data.length + 1)).filter
    (fun i => pat.data.isPrefixOf (s.data.drop i))).getLast?

/-- A Python `\w` word character (ASCII model of the regexes used). -/
def isWordChar (c : Char) : Bool :=
  c.isAlpha || c.isDigit || c = '_'

/-- All characters of a string are word characters (and there is one). -/
def isIdentText (s : String) : Bool :=
  s.data ≠ [] && s.data.all isWordChar

/-! ## Exact-fraction model of CPython `float` -/

/-- Fueled Euclid gcd, kernel-computable. -/
def gcdAux : Nat → Nat → Nat → Nat
  | 0, _, b => b
  | f + 1, a, b => if a = 0 then b else gcdAux f (b % a) a

/-- gcd with enough fuel to finish. -/
def gcdF (a b : Nat) : Nat := gcdAux (a + b + 1) a b

/-- Exact fraction standing in for a CPython `float`.  Kept normalised
    (positive denominator, reduced) by the smart constructor `mkFrac`. -/
structure Frac where
  num : Int
  den : Nat
deriving DecidableEq, Repr

/-- Build a reduced fraction; a zero denominator never arises (division by
    zero is special-cased upstream exactly as in the source). -/
def mkFrac (n : Int) (d : Int) : Frac :=
  if d = 0 then ⟨0, 1⟩
  else
    let n' : Int := if d < 0 then -n else n
    let d' : Nat := d.natAbs
    let g : Nat := gcdF n'.natAbs d'
    ⟨n' / (g : Int), d' / g⟩

def Frac.ofInt (n : Int) : Frac := ⟨n, 1⟩

def Frac.add (a b : Frac) : Frac := mkFrac (a.num * b.den + b.num * a.den) (a.den * b.den)
def Frac.sub (a b : Frac) : Frac := mkFrac (a.num * b.den - b.num * a.den) (a.den * b.den)
def Frac.mul (a b : Frac) : Frac := mkFrac (a.num * b.num) (a.den * b.den)
def Frac.div (a b : Frac) : Frac := mkFrac (a.num * b.den) (a.den * b.num)

/-- `0.0`. -/
def Frac.zero : Frac := ⟨0, 1⟩

/-- Python `float.is_integer()`. -/
def Frac.isInt (a : Frac) : Bool := a.den = 1

/-- Numeric comparison of two fractions (cross-multiplication). -/
def Frac.blt (a b : Frac) : Bool := a.num * b.den < b.num * a.den
def Frac.beq (a b : Frac) : Bool := a.num * b.den = b.num * a.den

/-- Decimal digits of a natural number. -/
def natDigits : Nat → Nat → List Char
  | 0, _ => []
  | _ + 1, 0 => []
  | f + 1, n => natDigits f (n / 10) ++ [Char.ofNat (48 + n % 10)]

def natStr (n : Nat) : String :=
  if n = 0 then "0" else ⟨natDigits (n + 1) n⟩

def intStr (n : Int) : String :=
  if n < 0 then "-" ++ natStr n.natAbs else natStr n.toNat

/-- Smallest power of ten clearing the denominator, searched with fuel. -/
def decExpAux (den : Nat) : Nat → Nat → Option Nat
  | 0, _ => none
  | f + 1, k => if 10 ^ k % den = 0 then some k else decExpAux den f (k + 1)

/-- Approximate model of CPython `repr(float)`: exact for terminating
    decimals (the only floats the modelled programs produce). -/
def Frac.reprStr (a : Frac) : String :=
  if a.den = 1 then intStr a.num ++ ".0"
  else
    match decExpAux a.den 40 0 with
    | some k =>
      let scaled : Int := a.num * ((10 ^ k : Nat) : Int) / (a.den : Int)
      let digits := natStr scaled.natAbs
      let digits := if digits.data.length ≤ k then
          ⟨List.replicate (k + 1 - digits.data.length) '0' ++ digits.data⟩ else digits
      let cut := digits.data.length - k
      (if a.num < 0 then "-" else "") ++ ⟨digits.data.take cut⟩ ++ "." ++ ⟨digits.data.drop cut⟩
    | none => intStr a.num ++ "/" ++ natStr a.den

/-! ## Python number parsing (`int(s)`, `float(s)`) -/

/-- Python `int(s)` on a string: optional surrounding whitespace, optional
    sign, decimal digits (underscores and other bases are not modelled;
    they never appear in the modelled programs). -/
def parseIntPy (s : String) : Option Int :=
  let cs := (sTrim s).data
  let (neg, cs) := match cs with
    | '-' :: rest => (true, rest)
    | '+' :: rest => (false, rest)
    | _ => (false, cs)
  if cs ≠ [] ∧ cs.all Char.isDigit then
    let n : Nat := cs.foldl (fun acc c => acc * 10 + (c.toNat - 48)) 0
    some (if neg then -(n : Int) else (n : Int))
  else none

/-- Digits folded to a natural number. -/
def digitsVal (cs : List Char) : Nat :=
  cs.foldl (fun acc c => acc * 10 + (c.toNat - 48)) 0

/-- Python `float(s)`: optional whitespace and sign, then
    `digits [ '.' digits* ] | '.' digits+`, with an optional exponent.
    (`inf`/`nan`/underscores are not modelled; they never occur here.) -/
def parseFloatPy (s : String) : Option Frac :=
  let cs := (sTrim s).data
  let (neg, cs) := match cs with
    | '-' :: rest => (true, rest)
    | '+' :: rest => (false, rest)
    | _ => (false, cs)
  let intPart := cs.takeWhile Char.isDigit
  let rest := cs.dropWhile Char.isDigit
  let (fracPart, rest) := match rest with
    | '.' :: r => (some (r.takeWhile Char.isDigit), r.dropWhile Char.isDigit)
    | _ => (none, rest)
  let (expPart, rest) := match rest with
    | 'e' :: r | 'E' :: r =>
      let (eneg, r) := match r with
        | '-' :: rr => (true, rr)
        | '+' :: rr => (false, rr)
        | _ => (false, r)
      let ds := r.takeWhile Char.isDigit
      if ds = [] then (none, ('e' : Char) :: r)  -- malformed exponent: reject below
      else (some (eneg, ds), r.dropWhile Char.isDigit)
    | _ => (none, rest)
  -- at least one digit must appear in the mantissa, and nothing may remain
  let digitsOk : Bool := !intPart.isEmpty || (match fracPart with | some f => !f.isEmpty | none => false)
  if rest.isEmpty && digitsOk then
    let fp := (fracPart.getD [])
    let mantNum : Int := Int.ofNat (digitsVal intPart * 10 ^ fp.length + digitsVal fp)
    let mantDen : Int := Int.ofNat (10 ^ fp.length)
    let base := mkFrac (if neg then -mantNum else mantNum) mantDen
    match expPart with
    | some (eneg, ds) =>
      let e := digitsVal ds
      if eneg then some (base.div ⟨((10 : Nat) ^ e : Nat), 1⟩)
      else some (base.mul ⟨((10 : Nat) ^ e : Nat), 1⟩)
    | none => some base
  else none

/-! ## Dynamic values

    `JValue` is the tagged union of the Python values the engine
    manipulates: `None`, `bool`, `int`, `float`, `str`, `dict` (ordered
    keys) and `list`.  Host objects (Qt widgets) are opaque capabilities
    owned by the GUI layer; they are outside this value universe, so the
    Python `hasattr` probes of the engine are `false` on every modelled
    value (no modelled program binds a host object). -/

inductive JValue where
  | null
  | bool (b : Bool)
  | int (n : Int)
  | float (q : Frac)
  | str (s : String)
  | obj (fields : List (String × JValue))
  | arr (items : List JValue)

/-- Python `type(x).__name__` for the modelled values. -/
def typeName : JValue → String
  | .null => "NoneType"
  | .bool _ => "bool"
  | .int _ => "int"
  | .float _ => "float"
  | .str _ => "str"
  | .obj _ => "dict"
  | .arr _ => "list"

/-- Python truthiness `bool(x)`. -/
def pyTruthy : JValue → Bool
  | .null => false
  | .bool b => b
  | .int n => n ≠ 0
  | .float q => q.num ≠ 0
  | .str s => s ≠ ""
  | .obj fs => !fs.isEmpty
  | .arr xs => !xs.isEmpty

/-- Numeric view used by comparisons: Python treats `bool` as a number
    (it subclasses `int`); strings are NOT numbers for comparison. -/
def asNum : JValue → Option Frac
  | .bool b => some ⟨if b then 1 else 0, 1⟩
  | .int n => some ⟨n, 1⟩
  | .float q => some q
  | _ => none

/-- Python `float(x)` as used by the arithmetic evaluator
    (`TypeError`/`ValueError` becomes `none`). -/
def pyFloatCoerce : JValue → Option Frac
  | .bool b => some ⟨if b then 1 else 0, 1⟩
  | .int n => some ⟨n, 1⟩
  | .float q => some q
  | .str s => parseFloatPy s
  | _ => none

/-- Python `int(x)` (truncation toward zero on floats). -/
def pyIntCoerce : JValue → Option Int
  | .bool b => some (if b then 1 else 0)
  | .int n => some n
  | .float q => some (q.num / (q.den : Int))
  | .str s => parseIntPy s
  | _ => none

/-- Ordered-dict update, Python `d[k] = v`: replace in place when the key
    exists, append otherwise. -/
def setKey {α : Type} (l : List (String × α)) (k : String) (v : α) : List (String × α) :=
  match l with
  | [] => [(k, v)]
  | (k', v') :: rest => if k' = k then (k, v) :: rest else (k', v') :: setKey rest k v

/-- Dict lookup, Python `d.get(k)` / `d[k]`. -/
def getKey {α : Type} (l : List (String × α)) (k : String) : Option α :=
  match l with
  | [] => none
  | (k', v') :: rest => if k' = k then some v' else getKey rest k

mutual

/-- CPython `repr(x)` on the modelled values (string escaping inside
    `repr` is not modelled; no claim observes it). -/
def pyRepr : JValue → String
  | .null => "None"
  | .bool b => if b then "True" else "False"
  | .int n => intStr n
  | .float q => q.reprStr
  | .str s => "'" ++ s ++ "'"
  | .obj fs => "\x7b" ++ reprFields fs ++ "\x7d"
  | .arr xs => "[" ++ reprItems xs ++ "]"

def reprFields : List (String × JValue) → String
  | [] => ""
  | [(k, v)] => "'" ++ k ++ "': " ++ pyRepr v
  | (k, v) :: rest => "'" ++ k ++ "': " ++ pyRepr v ++ ", " ++ reprFields rest

def reprItems : List JValue → String
  | [] => ""
  | [v] => pyRepr v
  | v :: rest => pyRepr v ++ ", " ++ reprItems rest

end

/-- CPython `str(x)` (identity on strings, `repr` otherwise, with the
    special forms for None/bool/numbers). -/
def pyStr : JValue → String
  | .str s => s
  | v => pyRepr v

/-- Python `==` on the modelled values, fueled (dict equality is
    order-insensitive, numbers compare across int/float/bool). -/
def pyEqF : Nat → JValue → JValue → Bool
  | 0, _, _ => false
  | f + 1, a, b =>
    match a, b with
    | .null, .null => true
    | .str s, .str t => s = t
    | .obj xs, .obj ys =>
      xs.length = ys.length &&
      xs.all (fun kv => match getKey ys kv.1 with
        | some w => pyEqF f kv.2 w
        | none => false)
    | .arr xs, .arr ys =>
      xs.length = ys.length &&
      (List.zip xs ys).all (fun vw => pyEqF f vw.1 vw.2)
    | a, b =>
      match asNum a, asNum b with
      | some x, some y => x.beq y
      | _, _ => false

/-- Lexicographic comparison of char lists (Python string ordering). -/
def charCmp : List Char → List Char → Ordering
  | [], [] => .eq
  | [], _ :: _ => .lt
  | _ :: _, [] => .gt
  | c :: cs, d :: ds =>
    if c.toNat < d.toNat then .lt
    else if d.toNat < c.toNat then .gt
    else charCmp cs ds

/-- The relational operators of the condition grammar. -/
inductive RelOp | eq | ne | lt | gt | le | ge
deriving DecidableEq, Repr

def RelOp.text : RelOp → String
  | .eq => "=" | .ne => "<>" | .lt => "<" | .gt => ">" | .le => "<=" | .ge => ">="

/-- The Python operator the interpreter applies for each `RelOp`. -/
def RelOp.pySym : RelOp → String
  | .eq => "==" | .ne => "!=" | .lt => "<" | .gt => ">" | .le => "<=" | .ge => ">="

def ordHolds (op : RelOp) (o : Ordering) : Bool :=
  match op, o with
  | .lt, .lt => true
  | .le, .lt | .le, .eq => true
  | .gt, .gt => true
  | .ge, .gt | .ge, .eq => true
  | .eq, .eq => true
  | .ne, .lt | .ne, .gt => true
  | _, _ => false

mutual

/-- Python rich comparison `a op b`, fueled; raising `TypeError` (as a
    message) exactly where CPython does on these types. -/
def pyCompare : Nat → RelOp → JValue → JValue → Except String Bool
  | 0, _, _, _ => .error "comparison fuel exhausted"
  | f + 1, op, a, b =>
    match op with
    | .eq => .ok (pyEqF (f + 1) a b)
    | .ne => .ok (!pyEqF (f + 1) a b)
    | _ =>
      match a, b with
      | .str s, .str t => .ok (ordHolds op (charCmp s.data t.data))
      | .arr xs, .arr ys => pyCompareList f op xs ys
      | a, b =>
        match asNum a, asNum b with
        | some x, some y =>
          .ok (ordHolds op (if x.blt y then .lt else if y.blt x then .gt else .eq))
        | _, _ =>
          .error ("'" ++ op.pySym ++ "' not supported between instances of '" ++
            typeName a ++ "' and '" ++ typeName b ++ "'")

/-- CPython list comparison: first index whose elements are not `==`
    decides via the requested operator; ties compare the lengths. -/
def pyCompareList : Nat → RelOp → List JValue → List JValue → Except String Bool
  | 0, _, _, _ => .error "comparison fuel exhausted"
  | f + 1, op, xs, ys =>
    match xs, ys with
    | x :: xs', y :: ys' =>
      if pyEqF (f + 1) x y then pyCompareList f op xs' ys'
      else pyCompare f op x y
    | xs, ys =>
      .ok (ordHolds op (if xs.length < ys.length then .lt
        else if ys.length < xs.length then .gt else .eq))

end

/-! ## `VBJsonRuntime` (src/runtime.py)

    The Python methods mutate dict/list trees in place; the embedding
    threads the updated tree explicitly (`json_set` returns the new tree).
    A Python exception escaping a runtime function becomes `.error msg`
    where `msg` models the exception text. -/

/-- One token of a dotted/bracketed path, `"a.b[0].c" → [a, b, 0, c]`. -/
inductive PathTok
  | key (k : String)
  | idx (i : Int)
deriving DecidableEq, Repr

/-- `VBJsonRuntime._split_path`, transliterated; the `int(num)` call can
    raise `ValueError`, modelled as `.error`. -/
def splitPathAux : Nat → List Char → List Char → List PathTok → Except String (List PathTok)
  | 0, _, _, _ => .error "path scan fuel exhausted"
  | _ + 1, [], buf, acc =>
    .ok (if buf.isEmpty then acc else acc ++ [.key ⟨buf⟩])
  | f + 1, '.' :: rest, buf, acc =>
    splitPathAux f rest [] (if buf.isEmpty then acc else acc ++ [.key ⟨buf⟩])
  | f + 1, '[' :: rest, buf, acc =>
    let num : List Char := rest.takeWhile (· ≠ ']')
    let rest' : List Char := (rest.dropWhile (· ≠ ']')).drop 1
    let acc' := if buf.isEmpty then acc else acc ++ [.key ⟨buf⟩]
    match parseIntPy ⟨num⟩ with
    | some n => splitPathAux f rest' [] (acc' ++ [.idx n])
    | none => .error ("invalid literal for int() with base 10: '" ++ (⟨num⟩ : String) ++ "'")
  | f + 1, c :: rest, buf, acc => splitPathAux f rest (buf ++ [c]) acc

def splitPath (path : String) : Except String (List PathTok) :=
  splitPathAux (path.data.length + 1) path.data [] []

/-- Python list/str indexing with negative-index wraparound. -/
def pyIndex {α : Type} (xs : List α) (i : Int) : Option α :=
  let n : Int := xs.length
  let j : Int := if i < 0 then n + i else i
  if 0 ≤ j ∧ j < n then xs.get? j.toNat else none

/-- Positive position of a (possibly negative) in-range Python index. -/
def pyIndexPos (len : Nat) (i : Int) : Nat :=
  (if i < 0 then (len : Int) + i else i).toNat

/-- One step of `json_get`: Python `cur[p]`. -/
def jsonGetStep (cur : JValue) (t : PathTok) : Except String JValue :=
  match t with
  | .key k =>
    match cur with
    | .obj fs =>
      match getKey fs k with
      | some v => .ok v
      | none => .error ("KeyError: '" ++ k ++ "'")
    | .arr _ => .error "TypeError: list indices must be integers or slices, not str"
    | .str _ => .error "TypeError: string indices must be integers"
    | v => .error ("TypeError: '" ++ typeName v ++ "' object is not subscriptable")
  | .idx i =>
    match cur with
    | .arr xs =>
      match pyIndex xs i with
      | some v => .ok v
      | none => .error "IndexError: list index out of range"
    | .obj _ => .error ("KeyError: " ++ intStr i)
    | .str s =>
      match pyIndex s.data i with
      | some c => .ok (.str ⟨[c]⟩)
      | none => .error "IndexError: string index out of range"
    | v => .error ("TypeError: '" ++ typeName v ++ "' object is not subscriptable")

/-- `VBJsonRuntime.json_get`: walk the path; any failing step raises. -/
def jsonGet (obj : JValue) (path : String) : Except String JValue := do
  let parts ← splitPath path
  parts.foldlM jsonGetStep obj

/-- The recursive core of `json_set`.  The source walks `parts[:-1]`
    creating `{}` for missing/None dict entries, then assigns at the last
    token; the pure version rebuilds the spine instead of mutating it
    (partial in-place mutation before a raised `TypeError` is not
    observable by any modelled program, whose faults escape the run). -/
def jsonSetGo : JValue → List PathTok → JValue → Except String JValue
  | _, [], _ => .error "IndexError: list index out of range"
  | cur, [t], value =>
    match t with
    | .idx i =>
      match cur with
      | .arr xs =>
        if (pyIndex xs i).isSome then .ok (.arr (xs.set (pyIndexPos xs.length i) value))
        else .error "IndexError: list assignment index out of range"
      | _ => .error ("JsonSet: trying to index non-list with [" ++ intStr i ++ "], got " ++ typeName cur)
    | .key k =>
      match cur with
      | .obj fs => .ok (.obj (setKey fs k value))
      | _ => .error ("JsonSet: trying to use key '" ++ k ++ "' on non-dict " ++ typeName cur)
  | cur, t :: rest, value =>
    match t with
    | .idx i =>
      match cur with
      | .arr xs =>
        match pyIndex xs i with
        | some child => do
          let child' ← jsonSetGo child rest value
          .ok (.arr (xs.set (pyIndexPos xs.length i) child'))
        | none => .error "IndexError: list index out of range"
      | _ => .error ("JsonSet: trying to index non-list with [" ++ intStr i ++ "], got " ++ typeName cur)
    | .key k =>
      match cur with
      | .obj fs =>
        let child : JValue :=
          match getKey fs k with
          | none => .obj []
          | some .null => .obj []
          | some v => v
        do
          let child' ← jsonSetGo child rest value
          .ok (.obj (setKey fs k child'))
      | _ => .error ("JsonSet: trying to use key '" ++ k ++ "' on non-dict " ++ typeName cur)

/-- `VBJsonRuntime.json_set` (returning the updated tree). -/
def jsonSet (obj : JValue) (path : String) (value : JValue) : Except String JValue := do
  let parts ← splitPath path
  match obj with
  | .obj _ | .arr _ =>
    match parts with
    | [] => .error "IndexError: list index out of range"
    | _ => jsonSetGo obj parts value
  | _ => .error ("JsonSet: first argument must be dict/list, got " ++ typeName obj)

/-- `VBJsonRuntime.SCHEMAS["Customer"]`. -/
def customerSchema : JValue := .obj [("name", .str ""), ("age", .int 0)]

/-- `VBJsonRuntime.SCHEMAS["Root"]` — the accounting-aware override that
    `runtime.py` installs at module load (the later assignment wins). -/
def rootSchema : JValue := .obj [
  ("ledger", .obj [
    ("accounts", .arr []), ("assetTypes", .arr []), ("batches", .arr []),
    ("journals", .arr []), ("postings", .arr []), ("postingsText", .str "")]),
  ("meta", .obj [
    ("nextAccountId", .int 1), ("nextAssetTypeId", .int 1), ("nextBatchId", .int 1),
    ("nextJournalId", .int 1), ("nextPostingSeq", .int 1)])]

def SCHEMAS : List (String × JValue) := [("Root", rootSchema), ("Customer", customerSchema)]

/-- `VBJsonRuntime.json_new`: deep copy of the schema template, `{}` for
    an unknown name.  At the level of structural values `deepcopy` is the
    identity; the reference-level freshness of the copy is established in
    the heap model further below. -/
def jsonNew (typeNm : String) : JValue :=
  match getKey SCHEMAS typeNm with
  | none => .obj []
  | some tpl => tpl

/-- Escaping of `json.dumps` for the characters the programs use. -/
def jsonEscape (s : String) : String :=
  ⟨s.data.foldr (fun c acc =>
    if c = '"' then '\\' :: '"' :: acc
    else if c = '\\' then '\\' :: '\\' :: acc
    else if c = '\n' then '\\' :: 'n' :: acc
    else if c = '\t' then '\\' :: 't' :: acc
    else if c = '\r' then '\\' :: 'r' :: acc
    else c :: acc) []⟩

mutual

/-- `VBJsonRuntime.json_stringify` = `json.dumps` with default separators. -/
def jsonStringify : JValue → String
  | .null => "null"
  | .bool b => if b then "true" else "false"
  | .int n => intStr n
  | .float q => q.reprStr
  | .str s => "\"" ++ jsonEscape s ++ "\""
  | .obj fs => "\x7b" ++ jsonStrFields fs ++ "\x7d"
  | .arr xs => "[" ++ jsonStrItems xs ++ "]"

def jsonStrFields : List (String × JValue) → String
  | [] => ""
  | [(k, v)] => "\"" ++ jsonEscape k ++ "\": " ++ jsonStringify v
  | (k, v) :: rest => "\"" ++ jsonEscape k ++ "\": " ++ jsonStringify v ++ ", " ++ jsonStrFields rest

def jsonStrItems : List JValue → String
  | [] => ""
  | [v] => jsonStringify v
  | v :: rest => jsonStringify v ++ ", " ++ jsonStrItems rest

end

/-- JSON whitespace. -/
def skipWs (cs : List Char) : List Char :=
  cs.dropWhile (fun c => c = ' ' || c = '\t' || c = '\n' || c = '\r')

def hexVal (c : Char) : Option Nat :=
  if c.isDigit then some (c.toNat - 48)
  else if 'a' ≤ c ∧ c ≤ 'f' then some (c.toNat - 87)
  else if 'A' ≤ c ∧ c ≤ 'F' then some (c.toNat - 55)
  else none

/-- Body of a JSON string after the opening quote. -/
def parseJStr : List Char → Except String (String × List Char)
  | [] => .error "Unterminated string"
  | '"' :: rest => .ok ("", rest)
  | '\\' :: esc =>
    match esc with
    | [] => .error "Unterminated string"
    | 'u' :: a :: b :: c :: d :: rest =>
      match hexVal a, hexVal b, hexVal c, hexVal d with
      | some x, some y, some z, some w => do
        let (s, rest') ← parseJStr rest
        .ok (⟨Char.ofNat (((x * 16 + y) * 16 + z) * 16 + w) :: s.data⟩, rest')
      | _, _, _, _ => .error "Invalid \\uXXXX escape"
    | e :: rest =>
      let c? : Option Char :=
        if e = '"' then some '"' else if e = '\\' then some '\\'
        else if e = '/' then some '/' else if e = 'n' then some '\n'
        else if e = 't' then some '\t' else if e = 'r' then some '\r'
        else if e = 'b' then some (Char.ofNat 8) else if e = 'f' then some (Char.ofNat 12)
        else none
      match c? with
      | some c => do
        let (s, rest') ← parseJStr rest
        .ok (⟨c :: s.data⟩, rest')
      | none => .error "Invalid \\escape"
  | c :: rest => do
    let (s, rest') ← parseJStr rest
    .ok (⟨c :: s.data⟩, rest')

/-- JSON number per `json.loads`: `-?(0|[1-9]\d*)(\.\d+)?([eE][-+]?\d+)?`;
    an integer literal yields a Python `int`, otherwise a `float`. -/
def parseJNum (cs : List Char) : Except String (JValue × List Char) :=
  let (neg, cs₁) := match cs with
    | '-' :: r => (true, r)
    | _ => (false, cs)
  let ip := cs₁.takeWhile Char.isDigit
  let r₁ := cs₁.dropWhile Char.isDigit
  if ip = [] then .error "Expecting value"
  else if ip.length > 1 ∧ ip.head? = some '0' then .error "Expecting value"
  else
    let (fp, r₂) := match r₁ with
      | '.' :: rr => (some (rr.takeWhile Char.isDigit), rr.dropWhile Char.isDigit)
      | _ => (none, r₁)
    match fp with
    | some [] => .error "Expecting fraction digits"
    | _ =>
      let (ep, r₃) := match r₂ with
        | 'e' :: rr | 'E' :: rr =>
          let (eneg, rr') := match rr with
            | '-' :: q => (true, q)
            | '+' :: q => (false, q)
            | _ => (false, rr)
          (some (eneg, rr'.takeWhile Char.isDigit), rr'.dropWhile Char.isDigit)
        | _ => (none, r₂)
      match ep with
      | some (_, []) => .error "Expecting exponent digits"
      | _ =>
        if fp = none ∧ ep = none then
          let n : Int := Int.ofNat (digitsVal ip)
          .ok (.int (if neg then -n else n), r₁)
        else
          let fpl := (fp.getD [])
          let mant : Int := Int.ofNat (digitsVal ip * 10 ^ fpl.length + digitsVal fpl)
          let base := mkFrac (if neg then -mant else mant) (Int.ofNat (10 ^ fpl.length))
          let q := match ep with
            | some (true, ds) => base.div ⟨Int.ofNat (10 ^ digitsVal ds), 1⟩
            | some (false, ds) => base.mul ⟨Int.ofNat (10 ^ digitsVal ds), 1⟩
            | none => base
          .ok (.float q, r₃)

mutual

/-- Recursive-descent model of `json.loads` (fuel-driven nesting). -/
def parseJValue : Nat → List Char → Except String (JValue × List Char)
  | 0, _ => .error "json fuel exhausted"
  | f + 1, cs =>
    match skipWs cs with
    | 'n' :: 'u' :: 'l' :: 'l' :: rest => .ok (.null, rest)
    | 't' :: 'r' :: 'u' :: 'e' :: rest => .ok (.bool true, rest)
    | 'f' :: 'a' :: 'l' :: 's' :: 'e' :: rest => .ok (.bool false, rest)
    | '"' :: rest => do
      let (s, rest') ← parseJStr rest
      .ok (.str s, rest')
    | '{' :: rest =>
      (match skipWs rest with
      | '}' :: rest' => .ok (.obj [], rest')
      | _ => parseJMembers f rest [])
    | '[' :: rest =>
      (match skipWs rest with
      | ']' :: rest' => .ok (.arr [], rest')
      | _ => parseJItems f rest [])
    | cs' => parseJNum cs'

def parseJMembers : Nat → List Char → List (String × JValue) → Except String (JValue × List Char)
  | 0, _, _ => .error "json fuel exhausted"
  | f + 1, cs, acc =>
    match skipWs cs with
    | '"' :: rest => do
      let (k, rest₁) ← parseJStr rest
      match skipWs rest₁ with
      | ':' :: rest₂ => do
        let (v, rest₃) ← parseJValue f rest₂
        let acc' := setKey acc k v
        match skipWs rest₃ with
        | ',' :: rest₄ => parseJMembers f rest₄ acc'
        | '}' :: rest₄ => .ok (.obj acc', rest₄)
        | _ => .error "Expecting , delimiter"
      | _ => .error "Expecting : delimiter"
    | _ => .error "Expecting property name enclosed in double quotes"

def parseJItems : Nat → List Char → List JValue → Except String (JValue × List Char)
  | 0, _, _ => .error "json fuel exhausted"
  | f + 1, cs, acc => do
    let (v, rest) ← parseJValue f cs
    match skipWs rest with
    | ',' :: rest' => parseJItems f rest' (acc ++ [v])
    | ']' :: rest' => .ok (.arr (acc ++ [v]), rest')
    | _ => .error "Expecting , delimiter"

end

/-- `VBJsonRuntime.json_parse` = `json.loads`; a parse error escapes the
    caller exactly like the `ValueError` does in Python. -/
def jsonParse (text : String) : Except String JValue := do
  let (v, rest) ← parseJValue (text.data.length + 1) text.data
  if (skipWs rest).isEmpty then .ok v else .error "Extra data"

/-! ## Interpreter state (`VBContext` plus the diagnostic stream)

    `vars` models `VBContext.globals`; `out` collects everything the
    engine prints (`[VB] …` diagnostics and the default MsgBox sink). -/

structure VBState where
  vars : List (String × JValue)
  out : List String

/-- `VBContext.get_var` (absent names read as `None`). -/
def VBState.getVar (st : VBState) (name : String) : JValue :=
  (getKey st.vars name).getD .null

/-- `VBContext.has_var`. -/
def VBState.hasVar (st : VBState) (name : String) : Bool :=
  (getKey st.vars name).isSome

/-- `VBContext.set_var`. -/
def VBState.setVar (st : VBState) (name : String) (v : JValue) : VBState :=
  { st with vars := setKey st.vars name v }

/-- A `print(...)` from the engine. -/
def VBState.report (st : VBState) (m : String) : VBState :=
  { st with out := st.out ++ [m] }

/-- The empty context. -/
def st0 : VBState := ⟨[], []⟩

/-! ## Ledger helpers of `runtime.py` (module-level functions)

    These are the accounting builtins reachable from `NewJournal` /
    `PostEntry`.  Python mutates the root tree in place; here the updated
    root is returned and the interpreter writes it back to the `AppData`
    context slot exactly when the Python aliasing would have made the
    mutation visible there (the argument was the dict stored in the
    context). -/

/-- `isinstance(x, dict)`. -/
def isJDict : JValue → Bool
  | .obj _ => true
  | _ => false

/-- `isinstance(x, int)` — true for `bool` too (Python subclassing). -/
def isJInt : JValue → Bool
  | .int _ => true
  | .bool _ => true
  | _ => false

/-- `isinstance(x, list)`. -/
def isJList : JValue → Bool
  | .arr _ => true
  | _ => false

/-- Fields of a dict value (`[]` on the unreachable non-dict default). -/
def getObj : JValue → List (String × JValue)
  | .obj fs => fs
  | _ => []

/-- Items of a list value. -/
def getArr : JValue → List JValue
  | .arr xs => xs
  | _ => []

/-- `meta.get(key, 1)` followed by integer use (guaranteed int-like
    after `_ensure_root_defaults`; `True` counts as `1`). -/
def metaGetInt (meta : List (String × JValue)) (k : String) : Int :=
  match getKey meta k with
  | some (.int n) => n
  | some (.bool b) => if b then 1 else 0
  | _ => 1

/-- The accounting-aware `_ensure_root_defaults` (the second definition
    in `runtime.py`, which overrides the first at load time). -/
def ensureRootDefaults (root : JValue) : JValue :=
  let rootFs := if isJDict root then getObj root else []
  let ledger := match getKey rootFs "ledger" with
    | some l => if isJDict l then getObj l else []
    | none => []
  let ledger := ["accounts", "assetTypes", "batches", "journals", "postings"].foldl
    (fun l k => match getKey l k with
      | some (.arr _) => l
      | _ => setKey l k (.arr [])) ledger
  let ledger := match getKey ledger "postingsText" with
    | some (.str _) => ledger
    | _ => setKey ledger "postingsText" (.str "")
  let rootFs := setKey rootFs "ledger" (.obj ledger)
  let meta := match getKey rootFs "meta" with
    | some m => if isJDict m then getObj m else []
    | none => []
  let meta := ["nextAccountId", "nextAssetTypeId", "nextBatchId",
               "nextJournalId", "nextPostingSeq"].foldl
    (fun m k => match getKey m k with
      | some v => if isJInt v then m else setKey m k (.int 1)
      | none => setKey m k (.int 1)) meta
  .obj (setKey rootFs "meta" (.obj meta))

/-- `_find_by_code`: first dict in the sequence whose `code` equals
    `code` under Python `==`. -/
def findByCode : List JValue → String → Option (List (String × JValue))
  | [], _ => none
  | x :: rest, code =>
    match x with
    | .obj fs =>
      if pyEqF 8 ((getKey fs "code").getD .null) (.str code) then some fs
      else findByCode rest code
    | _ => findByCode rest code

/-- Update one ledger table and one meta counter of an ensured root. -/
def rootWith (rootFs : List (String × JValue)) (table : String) (xs : List JValue)
    (counter : String) (next : Int) : List (String × JValue) :=
  let ledger := getObj ((getKey rootFs "ledger").getD (.obj []))
  let meta := getObj ((getKey rootFs "meta").getD (.obj []))
  let rootFs := setKey rootFs "ledger" (.obj (setKey ledger table (.arr xs)))
  setKey rootFs "meta" (.obj (setKey meta counter (.int next)))

/-- `get_or_create_asset_type` (returns updated root and the row). -/
def getOrCreateAssetType (root : JValue) (code : String) (descr : Option String) :
    JValue × List (String × JValue) :=
  let root := ensureRootDefaults root
  let code := if code = "" then "CUR" else code
  let rootFs := getObj root
  let ledger := getObj ((getKey rootFs "ledger").getD (.obj []))
  let meta := getObj ((getKey rootFs "meta").getD (.obj []))
  let assetTypes := getArr ((getKey ledger "assetTypes").getD (.arr []))
  match findByCode assetTypes code with
  | some fs => (root, fs)
  | none =>
    let atId := metaGetInt meta "nextAssetTypeId"
    let descStr := match descr with
      | some d => if d = "" then code else d
      | none => code
    let row : List (String × JValue) :=
      [("id", .int atId), ("code", .str code), ("description", .str descStr)]
    (.obj (rootWith rootFs "assetTypes" (assetTypes ++ [.obj row]) "nextAssetTypeId" (atId + 1)), row)

/-- `get_or_create_account`. -/
def getOrCreateAccount (root : JValue) (code : String) (name : Option String)
    (accountType : String) (assetTypeCode : Option String) :
    JValue × List (String × JValue) :=
  let root := ensureRootDefaults root
  let code := if code = "" then "UNSPEC" else code
  let rootFs := getObj root
  let ledger := getObj ((getKey rootFs "ledger").getD (.obj []))
  let accounts := getArr ((getKey ledger "accounts").getD (.arr []))
  match findByCode accounts code with
  | some fs => (root, fs)
  | none =>
    let atCode := match assetTypeCode with
      | some c => if c = "" then "CUR" else c
      | none => "CUR"
    let (root, atRow) := getOrCreateAssetType root atCode none
    let rootFs := getObj root
    let ledger := getObj ((getKey rootFs "ledger").getD (.obj []))
    let meta := getObj ((getKey rootFs "meta").getD (.obj []))
    let accounts := getArr ((getKey ledger "accounts").getD (.arr []))
    let accId := metaGetInt meta "nextAccountId"
    let nameStr := match name with
      | some n => if n = "" then code else n
      | none => code
    let row : List (String × JValue) :=
      [("id", .int accId), ("code", .str code), ("name", .str nameStr),
       ("type", .str accountType), ("assetTypeId", (getKey atRow "id").getD .null)]
    (.obj (rootWith rootFs "accounts" (accounts ++ [.obj row]) "nextAccountId" (accId + 1)), row)

/-- `create_journal`; the `date[7]` probe can raise `IndexError` on a
    7-character date exactly as in the source. -/
def createJournal (root : JValue) (date desc : String) (period : Option String)
    (batchId : Option Int) : Except String (JValue × Int) := do
  let root := ensureRootDefaults root
  let period ← match period with
    | some p => if p ≠ "" then .ok p else computePeriod date
    | none => computePeriod date
  let rootFs := getObj root
  let ledger := getObj ((getKey rootFs "ledger").getD (.obj []))
  let meta := getObj ((getKey rootFs "meta").getD (.obj []))
  let jId := metaGetInt meta "nextJournalId"
  let row : List (String × JValue) :=
    [("id", .int jId), ("date", .str date), ("description", .str desc),
     ("period", .str period)] ++
    (match batchId with
     | some b => [("batchId", .int b)]
     | none => [])
  let journals := getArr ((getKey ledger "journals").getD (.arr []))
  .ok (.obj (rootWith rootFs "journals" (journals ++ [.obj row]) "nextJournalId" (jId + 1)), jId)
where
  /-- `date[:7]` when the date looks like `YYYY-MM-…`, else `"0000-00"`;
      `date[7]` on a 7-character date raises `IndexError`. -/
  computePeriod (date : String) : Except String String :=
    if date.data.length ≥ 7 then
      if sGet date 4 = some '-' then
        match sGet date 7 with
        | some c => if c = '-' then .ok (sTake date 7) else .ok "0000-00"
        | none => .error "IndexError: string index out of range"
      else .ok "0000-00"
    else .ok "0000-00"

/-- `post_entry` (total: no raising path is reachable). -/
def postEntry (root : JValue) (accountCode assetTypeCode period : String)
    (journalId : Int) (amount : Frac) (memo : Option String) : JValue × Int :=
  let root := ensureRootDefaults root
  let (root, account) := getOrCreateAccount root accountCode none "generic" (some assetTypeCode)
  let (root, assetType) := getOrCreateAssetType root assetTypeCode none
  let period := if period = "" then "0000-00" else period
  let rootFs := getObj root
  let ledger := getObj ((getKey rootFs "ledger").getD (.obj []))
  let meta := getObj ((getKey rootFs "meta").getD (.obj []))
  let seq := metaGetInt meta "nextPostingSeq"
  let row : List (String × JValue) :=
    [("id", .int seq), ("journalId", .int journalId),
     ("accountId", (getKey account "id").getD .null),
     ("assetTypeId", (getKey assetType "id").getD .null),
     ("period", .str period), ("amount", .float amount)] ++
    (match memo with
     | some m => if m ≠ "" then [("memo", .str m)] else []
     | none => [])
  let postings := getArr ((getKey ledger "postings").getD (.arr []))
  (.obj (rootWith rootFs "postings" (postings ++ [.obj row]) "nextPostingSeq" (seq + 1)), seq)

/-! ## `VBInterpreter` (src/interpreter.py)

    Faults: a Python exception the interpreter does not catch becomes
    `.error (.pyExn msg)`; `.error .outOfFuel` is fuel exhaustion of the
    embedding only. -/

inductive VBErr
  | pyExn (msg : String)
  | outOfFuel
deriving DecidableEq, Repr

/-- The condition regex `^(.*?)(=|<>|<=|>=|<|>)(.*)$`: lazy prefix means
    the earliest position wins, and at one position the alternation tries
    `=`, `<>`, `<=`, `>=`, `<`, `>` in that order, so the two-character
    operators are taken as units. -/
def findRelOp : List Char → Option (List Char × RelOp × List Char)
  | [] => none
  | c :: rest =>
    if c = '=' then some ([], .eq, rest)
    else if c = '<' then
      match rest with
      | '>' :: r => some ([], .ne, r)
      | '=' :: r => some ([], .le, r)
      | _ => some ([], .lt, rest)
    else if c = '>' then
      match rest with
      | '=' :: r => some ([], .ge, r)
      | _ => some ([], .gt, rest)
    else
      match findRelOp rest with
      | some (l, op, r) => some (c :: l, op, r)
      | none => none

/-- The arithmetic regex `^(.*?)([+\-*/])(.*)$`: split at the first
    arithmetic operator character. -/
def findArithOp : List Char → Option (List Char × Char × List Char)
  | [] => none
  | c :: rest =>
    if c = '+' ∨ c = '-' ∨ c = '*' ∨ c = '/' then some ([], c, rest)
    else
      match findArithOp rest with
      | some (l, op, r) => some (c :: l, op, r)
      | none => none

/-- `VBInterpreter._find_assignment_equals`: position of the first `=`
    outside a string literal, toggling on unescaped double quotes.  The
    initial `prev` is any non-backslash character (Python starts with the
    empty string, only ever compared against a backslash). -/
def findAssignEqAux : List Char → Bool → Char → Nat → Option Nat
  | [], _, _, _ => none
  | c :: rest, inStr, prev, i =>
    let inStr' := if c = '"' ∧ prev ≠ '\\' then !inStr else inStr
    if c = '=' ∧ inStr' = false then some i
    else findAssignEqAux rest inStr' c (i + 1)

def findAssignEq (line : String) : Option Nat :=
  findAssignEqAux line.data false ' ' 0

/-- `VBInterpreter._parse_args`: split on top-level commas, aware of
    quotes and parenthesis depth (the depth is a Python int and may go
    negative). -/
def parseArgsAux : List Char → Bool → Int → List Char → List String → Char → List String
  | [], _, _, buf, args, _ => if buf.isEmpty then args else args ++ [sTrim ⟨buf⟩]
  | c :: rest, inStr, depth, buf, args, prev =>
    let inStr' := if c = '"' ∧ prev ≠ '\\' then !inStr else inStr
    if inStr' = false ∧ c = '(' then parseArgsAux rest inStr' (depth + 1) (buf ++ [c]) args c
    else if inStr' = false ∧ c = ')' then parseArgsAux rest inStr' (depth - 1) (buf ++ [c]) args c
    else if inStr' = false ∧ c = ',' ∧ depth = 0 then
      let arg := sTrim ⟨buf⟩
      parseArgsAux rest inStr' depth [] (if arg = "" then args else args ++ [arg]) c
    else parseArgsAux rest inStr' depth (buf ++ [c]) args c

def parseArgs (s : String) : List String :=
  parseArgsAux s.data false 0 [] [] ' '

/-- The call-expression regex `(\w+)\s*\((.*)\)$` of `eval_atom`
    (`re.match`): leading word, optional spaces, an opening parenthesis,
    and the closing parenthesis must be the last character. -/
def parseFuncCall (s : String) : Option (String × String) :=
  let name := s.data.takeWhile isWordChar
  if name.isEmpty then none
  else
    match (s.data.dropWhile isWordChar).dropWhile Char.isWhitespace with
    | '(' :: inner =>
      match inner.getLast? with
      | some ')' => some (⟨name⟩, ⟨inner.dropLast⟩)
      | _ => none
    | _ => none

/-- The method-call regex `(\w+)\.(\w+)\s*(.*)` of `exec_call`. -/
def parseMethodCall (s : String) : Option (String × String × String) :=
  let objN := s.data.takeWhile isWordChar
  if objN.isEmpty then none
  else
    match s.data.dropWhile isWordChar with
    | '.' :: rest =>
      let meth := rest.takeWhile isWordChar
      if meth.isEmpty then none
      else some (⟨objN⟩, ⟨meth⟩, ⟨(rest.dropWhile isWordChar).dropWhile Char.isWhitespace⟩)
    | _ => none

/-- The bare-call regex `(\w+)\s*(.*)` of `exec_call`. -/
def parseBareCall (s : String) : Option (String × String) :=
  let name := s.data.takeWhile isWordChar
  if name.isEmpty then none
  else some (⟨name⟩, ⟨(s.data.dropWhile isWordChar).dropWhile Char.isWhitespace⟩)

/-- The numeric-literal regex `\d+(\.\d+)?` (`re.fullmatch`). -/
def isNumLit (cs : List Char) : Bool :=
  let ip := cs.takeWhile Char.isDigit
  let rest := cs.dropWhile Char.isDigit
  !ip.isEmpty &&
    (rest.isEmpty ||
      (match rest with
       | '.' :: fp => !fp.isEmpty && fp.all Char.isDigit
       | _ => false))

/-- `to_num` inside `_coerce_for_compare`. -/
def toNumForCompare (x : JValue) : JValue × Bool :=
  match x with
  | .int _ | .float _ | .bool _ => (x, true)
  | .str s =>
    if sContains s "." then
      match parseFloatPy s with
      | some q => (.float q, true)
      | none => (x, false)
    else
      match parseIntPy s with
      | some n => (.int n, true)
      | none => (x, false)
  | _ => (x, false)

/-- `VBInterpreter._coerce_for_compare`. -/
def coerceForCompare (l r : JValue) : JValue × JValue :=
  let (ln, lb) := toNumForCompare l
  let (rn, rb) := toNumForCompare r
  if lb ∧ rb then (ln, rn) else (l, r)

/-- Python `args[i]` (an `IndexError` escapes the interpreter). -/
def pyArg (args : List JValue) (i : Nat) : Except VBErr JValue :=
  match args.get? i with
  | some v => .ok v
  | none => .error (.pyExn "IndexError: list index out of range")

/-- Lift a raised runtime exception into the interpreter error type. -/
def liftRt {α : Type} : Except String α → Except VBErr α
  | .ok a => .ok a
  | .error m => .error (.pyExn m)

/-- `VBInterpreter._call_function`: the value-returning builtin table.
    None of the branches catches the exceptions its callee may raise. -/
def callFunctionBuiltin (name : String) (args : List JValue) (st : VBState) :
    Except VBErr (JValue × VBState) :=
  let upper := sUpper name
  if upper = "JSONNEW" then do
    let a0 ← pyArg args 0
    .ok (jsonNew (pyStr a0), st)
  else if upper = "JSONPARSE" then do
    let a0 ← pyArg args 0
    let v ← liftRt (jsonParse (pyStr a0))
    .ok (v, st)
  else if upper = "JSONSTRINGIFY" then do
    let a0 ← pyArg args 0
    .ok (.str (jsonStringify a0), st)
  else if upper = "JSONGET" then do
    let a0 ← pyArg args 0
    let a1 ← pyArg args 1
    let v ← liftRt (jsonGet a0 (pyStr a1))
    .ok (v, st)
  else if upper = "NEWJOURNAL" then
    let appData := st.getVar "AppData"
    let date := match args.get? 0 with | some v => pyStr v | none => ""
    let desc := match args.get? 1 with | some v => pyStr v | none => ""
    let period : Option String := match args.get? 2 with
      | some .null => none
      | some v => some (pyStr v)
      | none => none
    match createJournal appData date desc period none with
    | .error m => .error (.pyExn m)
    | .ok (root', jid) =>
      -- `create_journal` mutates `app_data` in place; the context slot
      -- aliases it exactly when AppData held the dict that was passed.
      .ok (.int jid, if isJDict appData then st.setVar "AppData" root' else st)
  else
    .ok (.null, st.report ("[VB] Unknown function in expression: " ++ name))

/-- Requests of the expression-evaluation knot: `eval_expr`, `eval_atom`,
    and the two sequential evaluation loops over argument/segment lists
    (state threads left to right, exactly like the Python comprehensions). -/
inductive EReq
  | expr (s : String)
  | atom (s : String)
  | args (xs : List String)
  | atoms (xs : List String)

/-- `"" if v is None else str(v)` of the concatenation branch. -/
def concatPiece : JValue → String
  | .null => ""
  | v => pyStr v

/-- The arithmetic step of `eval_expr` (source lines 447-470): coerce both
    operands with `float(...)` (failures become `0.0`), apply the
    operator (`/` by zero yields `0.0`), and return an `int` when the
    float result has no fractional part. -/
def arithResult (op : Char) (lv rv : JValue) : JValue :=
  let a := (pyFloatCoerce lv).getD ⟨0, 1⟩
  let b := (pyFloatCoerce rv).getD ⟨0, 1⟩
  let res : Frac :=
    if op = '+' then a.add b
    else if op = '-' then a.sub b
    else if op = '*' then a.mul b
    else if op = '/' then (if b.num = 0 then ⟨0, 1⟩ else a.div b)
    else ⟨0, 1⟩
  if res.isInt then .int res.num else .float res

/-- The expression evaluator (`eval_expr` / `eval_atom`), fuel-driven.
    `.expr`/`.atom` answer a one-element list. -/
def evalE : Nat → EReq → VBState → Except VBErr (List JValue × VBState)
  | 0, _, _ => .error .outOfFuel
  | _ + 1, .args [], st => .ok ([], st)
  | f + 1, .args (a :: as'), st => do
    let (vs, st₁) ← evalE f (.expr a) st
    let (rest, st₂) ← evalE f (.args as') st₁
    .ok (vs.headD .null :: rest, st₂)
  | _ + 1, .atoms [], st => .ok ([], st)
  | f + 1, .atoms (a :: as'), st => do
    let (vs, st₁) ← evalE f (.atom a) st
    let (rest, st₂) ← evalE f (.atoms as') st₁
    .ok (vs.headD .null :: rest, st₂)
  | f + 1, .expr expr0, st =>
    let expr := sTrim expr0
    if expr = "" then .ok ([.str ""], st)
    -- 0) fully-quoted fast path: first AND last character a double quote
    else if sStartsWith expr "\"" ∧ sEndsWith expr "\"" then
      evalE f (.atom expr) st
    -- 1) concatenation: split on every `&` (not quote-aware)
    else if sContains expr "&" then do
      let parts := (sSplit expr "&").map sTrim
      let (vs, st₁) ← evalE f (.atoms parts) st
      .ok ([.str (String.join (vs.map concatPiece))], st₁)
    -- 2) single binary arithmetic operator with nonempty operand texts
    else
      match findArithOp expr.data with
      | some (lcs, op, rcs) =>
        let lt := sTrim ⟨lcs⟩
        let rt := sTrim ⟨rcs⟩
        if lt ≠ "" ∧ rt ≠ "" then do
          let (lvs, st₁) ← evalE f (.atom lt) st
          let (rvs, st₂) ← evalE f (.atom rt) st₁
          .ok ([arithResult op (lvs.headD .null) (rvs.headD .null)], st₂)
        else evalE f (.atom expr) st
      | none => evalE f (.atom expr) st
  | f + 1, .atom atom0, st =>
    let atom := sTrim atom0
    if atom = "" then .ok ([.str ""], st)
    -- string literal, VB-style doubled quotes
    else if sStartsWith atom "\"" ∧ sEndsWith atom "\"" then
      .ok ([.str (sReplace (sSlice atom 1 (-1)) "\"\"" "\"")], st)
    -- numeric literal
    else if isNumLit atom.data then
      if sContains atom "." then .ok ([.float ((parseFloatPy atom).getD ⟨0, 1⟩)], st)
      else .ok ([.int ((parseIntPy atom).getD 0)], st)
    else
      match parseFuncCall atom with
      | some (nm, argStr) => do
        let argStr := sTrim argStr
        let args := if argStr = "" then [] else parseArgs argStr
        let (argVals, st₁) ← evalE f (.args args) st
        let (v, st₂) ← callFunctionBuiltin nm argVals st₁
        .ok ([v], st₂)
      | none =>
        if sContains atom "." then
          -- variable.property: `hasattr` is false on every modelled value
          -- (no modelled program names a Python dict/str method), so the
          -- probe falls to `obj[attr]`, whose exceptions yield None
          let varName := sTrim ⟨atom.data.takeWhile (· ≠ '.')⟩
          let attr := sTrim ⟨(atom.data.dropWhile (· ≠ '.')).drop 1⟩
          match st.getVar varName with
          | .null => .ok ([.null], st)
          | .obj fs => .ok ([(getKey fs attr).getD .null], st)
          | _ => .ok ([.null], st)
        else .ok ([st.getVar atom], st)

/-- `VBInterpreter.eval_expr`. -/
def evalExpr (f : Nat) (s : String) (st : VBState) : Except VBErr (JValue × VBState) :=
  (evalE f (.expr s) st).map (fun r => (r.1.headD .null, r.2))

/-- `VBInterpreter.eval_atom`. -/
def evalAtom (f : Nat) (s : String) (st : VBState) : Except VBErr (JValue × VBState) :=
  (evalE f (.atom s) st).map (fun r => (r.1.headD .null, r.2))

/-- `VBInterpreter._eval_condition`.  Only the comparison itself sits in
    the `try` block: a fault in either side's evaluation escapes.  The
    comparison fuel `f + 1` only bounds the list-nesting depth of the
    compared values and is never exhausted on the values the modelled
    programs compare. -/
def evalCondition (f : Nat) (cond0 : String) (st : VBState) : Except VBErr (Bool × VBState) :=
  let cond := sTrim cond0
  if cond = "" then .ok (false, st)
  else
    match findRelOp cond.data with
    | some (lcs, op, rcs) => do
      let (lv, st₁) ← evalExpr f (sTrim ⟨lcs⟩) st
      let (rv, st₂) ← evalExpr f (sTrim ⟨rcs⟩) st₁
      let (lv, rv) := coerceForCompare lv rv
      match pyCompare (f + 1) op lv rv with
      | .ok b => .ok (b, st₂)
      | .error m => .ok (false, st₂.report ("[VB] Error comparing values in If: " ++ m))
    | none => do
      let (v, st₁) ← evalExpr f cond st
      .ok (pyTruthy v, st₁)

/-- `VBInterpreter._exec_dim`. -/
def execDim (decl : String) (st : VBState) : VBState :=
  let names := ((sSplit decl ",").map sTrim).filter (· ≠ "")
  names.foldl (fun st name =>
    let base : String := ⟨name.data.takeWhile (fun c => !c.isWhitespace)⟩
    if st.hasVar base then st else st.setVar base .null) st

/-- `VBInterpreter.assign`.  On a dotted left side the root is resolved
    (auto-creating `{}` when unbound), then `obj[attr] = value`; the
    `TypeError` on non-dict containers is caught and reported. -/
def assign (st : VBState) (left : String) (v : JValue) : VBState :=
  if sContains left "." then
    let varName := sTrim ⟨left.data.takeWhile (· ≠ '.')⟩
    let attr := sTrim ⟨(left.data.dropWhile (· ≠ '.')).drop 1⟩
    let obj := st.getVar varName
    let (obj, st) :=
      match obj with
      | .null => ((.obj [] : JValue), st.setVar varName (.obj []))
      | o => (o, st)
    match obj with
    | .obj fs => st.setVar varName (.obj (setKey fs attr v))
    | _ => st.report ("[VB] Cannot assign " ++ attr ++ " on " ++ pyStr obj)
  else st.setVar left v

/-- `VBInterpreter.exec_call`: method-call shape first, then bare
    call/builtin dispatch.  Argument expressions are evaluated before the
    branch on the name; `hasattr` probes are false on modelled values, so
    the (caught) host-method invocation branch is unreachable here. -/
def execCall (f : Nat) (line : String) (st : VBState) : Except VBErr VBState :=
  match parseMethodCall line with
  | some (objName, methName, argStr0) => do
    let argStr := sTrim argStr0
    let (_, st₁) ←
      if argStr ≠ "" then
        let argStr := if sStartsWith argStr "(" ∧ sEndsWith argStr ")" then sSlice argStr 1 (-1) else argStr
        evalE f (.args (parseArgs argStr)) st
      else .ok ([], st)
    match st₁.getVar objName with
    | .null => .ok (st₁.report ("[VB] Method call on unknown object: " ++ objName))
    | _ => .ok (st₁.report ("[VB] Object " ++ objName ++ " has no method " ++ methName))
  | none =>
    match parseBareCall line with
    | none => .ok (st.report ("[VB] Cannot parse line: " ++ line))
    | some (name, argStr0) => do
      let argStr := sTrim argStr0
      let argTexts :=
        if argStr ≠ "" then
          parseArgs (if sStartsWith argStr "(" ∧ sEndsWith argStr ")" then sSlice argStr 1 (-1) else argStr)
        else []
      let (evalArgs, st₁) ← evalE f (.args argTexts) st
      let upper := sUpper name
      if upper = "MSGBOX" then
        .ok (st₁.report ("[MsgBox] " ++ pyStr (evalArgs.headD (.str ""))))
      else if upper = "JSONSET" then
        if evalArgs.length < 3 then .ok (st₁.report "[VB] JsonSet requires 3 args")
        else
          let obj := evalArgs.headD .null
          let path := pyStr (evalArgs.getD 1 .null)
          let val := evalArgs.getD 2 .null
          match jsonSet obj path val with
          | .error m => .error (.pyExn m)  -- `json_set` raising: nothing catches it
          | .ok newTree =>
            -- in-place mutation is visible through the context exactly when
            -- the first argument text is a bare (non-literal) identifier
            let a0 := sTrim (argTexts.headD "")
            .ok (if isIdentText a0 ∧ !isNumLit a0.data then st₁.setVar a0 newTree else st₁)
      else if upper = "BROWSEREVALJS" then
        if evalArgs.length < 2 then .ok (st₁.report "[VB] BrowserEvalJs requires browser and script")
        else .ok (st₁.report "[VB] First argument to BrowserEvalJs is not a browser object")
      else if upper = "POSTENTRY" then
        if evalArgs.length < 5 then
          .ok (st₁.report "[VB] PostEntry requires 5 args: accountCode, assetTypeCode, period, journalId, amount")
        else
          let appData := st₁.getVar "AppData"
          let accountCode := pyStr (evalArgs.getD 0 .null)
          let assetTypeCode := pyStr (evalArgs.getD 1 .null)
          let period := pyStr (evalArgs.getD 2 .null)
          let journalId := (pyIntCoerce (evalArgs.getD 3 .null)).getD 0
          let amount := (pyFloatCoerce (evalArgs.getD 4 .null)).getD ⟨0, 1⟩
          let (root', _) := postEntry appData accountCode assetTypeCode period journalId amount none
          .ok (if isJDict appData then st₁.setVar "AppData" root' else st₁)
      else .ok (st₁.report ("[VB] Unknown statement: " ++ line))

/-- `VBInterpreter.exec_line`. -/
def execLine (f : Nat) (line : String) (st : VBState) : Except VBErr VBState :=
  let upper := sUpper line
  if sStartsWith upper "DIM " then .ok (execDim (sTrim (sDrop line 3)) st)
  else
    let eqPos := if sContains line "=" then findAssignEq line else none
    match eqPos with
    | some i =>
      if sStartsWith upper "IF " then execCall f line st
      else do
        let left := sTrim (sTake line i)
        let right := sTrim (sDrop line (i + 1))
        let (v, st₁) ← evalExpr f right st
        .ok (assign st₁ left v)
    | none => execCall f line st

/-- The condition text of an `If` header: everything after `If` up to the
    LAST occurrence of `THEN` (`uline.rfind("THEN")`; the Python `-1` for
    a missing `THEN` feeds the slice as a negative end index). -/
def ifCondText (line : String) : String :=
  let thenPos : Int :=
    match sRFind (sUpper line) "THEN" with
    | some n => n
    | none => -1
  sTrim (sSlice line 2 thenPos)

/-- The forward scan of `_exec_if_block`: from `j` while `j < e` and the
    depth is positive, counting nested `If … Then` headers and `End If`
    footers, recording the first bare `Else` at depth 1. -/
def scanIfAux (lines : List String) (e : Nat) : Nat → Nat → Nat → Option Nat → Nat × Nat × Option Nat
  | 0, j, depth, elseIdx => (j, depth, elseIdx)
  | f + 1, j, depth, elseIdx =>
    if j < e ∧ depth > 0 then
      let ucur := sUpper (sTrim ((lines.get? j).getD ""))
      let (depth', elseIdx') :=
        if sStartsWith ucur "IF " ∧ sContains ucur " THEN" then (depth + 1, elseIdx)
        else if ucur = "END IF" then (depth - 1, elseIdx)
        else if ucur = "ELSE" ∧ depth = 1 ∧ elseIdx = none then (depth, some j)
        else (depth, elseIdx)
      scanIfAux lines e f (j + 1) depth' elseIdx'
    else (j, depth, elseIdx)

def scanIf (lines : List String) (e j : Nat) : Nat × Nat × Option Nat :=
  scanIfAux lines e (e + 1) j 1 none

/-- The forward scan of `_exec_while_block`. -/
def scanWhileAux (lines : List String) (e : Nat) : Nat → Nat → Nat → Nat × Nat
  | 0, j, depth => (j, depth)
  | f + 1, j, depth =>
    if j < e ∧ depth > 0 then
      let ucur := sUpper (sTrim ((lines.get? j).getD ""))
      let depth' :=
        if sStartsWith ucur "WHILE " then depth + 1
        else if ucur = "WEND" then depth - 1
        else depth
      scanWhileAux lines e f (j + 1) depth'
    else (j, depth)

def scanWhile (lines : List String) (e j : Nat) : Nat × Nat :=
  scanWhileAux lines e (e + 1) j 1

/-- The forward scan of the pre-test `Do While` branch. -/
def scanDoPreAux (lines : List String) (e : Nat) : Nat → Nat → Nat → Nat × Nat
  | 0, j, depth => (j, depth)
  | f + 1, j, depth =>
    if j < e ∧ depth > 0 then
      let ucur := sUpper (sTrim ((lines.get? j).getD ""))
      let depth' :=
        if sStartsWith ucur "DO" then depth + 1
        else if sStartsWith ucur "LOOP" then depth - 1
        else depth
      scanDoPreAux lines e f (j + 1) depth'
    else (j, depth)

def scanDoPre (lines : List String) (e j : Nat) : Nat × Nat :=
  scanDoPreAux lines e (e + 1) j 1

/-- The forward scan of the post-test `Do … Loop` branch, breaking on the
    footer that takes the depth to zero (its index is the result). -/
def scanDoPostAux (lines : List String) (e : Nat) : Nat → Nat → Nat → Option Nat
  | 0, _, _ => none
  | f + 1, j, depth =>
    if j < e ∧ depth > 0 then
      let ucur := sUpper (sTrim ((lines.get? j).getD ""))
      if sStartsWith ucur "DO" then scanDoPostAux lines e f (j + 1) (depth + 1)
      else if sStartsWith ucur "LOOP" then
        if depth - 1 = 0 then some j
        else scanDoPostAux lines e f (j + 1) (depth - 1)
      else scanDoPostAux lines e f (j + 1) depth
    else none

def scanDoPost (lines : List String) (e j : Nat) : Option Nat :=
  scanDoPostAux lines e (e + 1) j 1

/-- Requests of the block-executor knot (`run_lines` and the block
    methods; the two condition-driven loops are their `while` loops). -/
inductive XReq
  | lines (lines : List String) (s e : Nat)
  | ifBlk (lines : List String) (i e : Nat)
  | whileBlk (lines : List String) (i e : Nat)
  | whileLoop (cond : String) (lines : List String) (bs be ret : Nat)
  | doBlk (lines : List String) (i e : Nat)
  | doPost (cond : String) (lines : List String) (bs be ret : Nat)

/-- The block executor.  Every case is the transliteration of the method
    named in its comment; the answer's second component is the index at
    which the caller's cursor resumes. -/
def execR : Nat → XReq → VBState → Except VBErr (VBState × Nat)
  | 0, _, _ => .error .outOfFuel
  -- run_lines
  | f + 1, .lines lines s e, st =>
    if s < e then
      let line := sTrim ((lines.get? s).getD "")
      let upper := sUpper line
      if sStartsWith upper "IF " ∧ sContains upper " THEN" then do
        let (st₁, i') ← execR f (.ifBlk lines s e) st
        execR f (.lines lines i' e) st₁
      else if sStartsWith upper "WHILE " then do
        let (st₁, i') ← execR f (.whileBlk lines s e) st
        execR f (.lines lines i' e) st₁
      else if sStartsWith upper "DO" then do
        let (st₁, i') ← execR f (.doBlk lines s e) st
        execR f (.lines lines i' e) st₁
      else do
        let st₁ ← execLine f line st
        execR f (.lines lines (s + 1) e) st₁
    else .ok (st, e)
  -- _exec_if_block
  | f + 1, .ifBlk lines i e, st =>
    let line := (lines.get? i).getD ""
    let condText := ifCondText line
    let (j, depth, elseIdx) := scanIf lines e (i + 1)
    let endIf := j - 1
    if depth ≠ 0 then .ok (st.report "[VB] Warning: unmatched If/End If", j)
    else do
      let thenEnd := elseIdx.getD endIf
      let (b, st₁) ← evalCondition f condText st
      if b then do
        let (st₂, _) ← execR f (.lines lines (i + 1) thenEnd) st₁
        .ok (st₂, endIf + 1)
      else
        match elseIdx with
        | some ei => do
          let (st₂, _) ← execR f (.lines lines (ei + 1) endIf) st₁
          .ok (st₂, endIf + 1)
        | none => .ok (st₁, endIf + 1)
  -- _exec_while_block
  | f + 1, .whileBlk lines i e, st =>
    let line := (lines.get? i).getD ""
    let condText := sTrim (sDrop line 5)
    let (j, depth) := scanWhile lines e (i + 1)
    if depth ≠ 0 then .ok (st.report "[VB] Warning: unmatched While/Wend", j)
    else execR f (.whileLoop condText lines (i + 1) (j - 1) j) st
  -- `while self._eval_condition(cond_text): self.run_lines(...)`
  | f + 1, .whileLoop cond lines bs be ret, st => do
    let (b, st₁) ← evalCondition f cond st
    if b then do
      let (st₂, _) ← execR f (.lines lines bs be) st₁
      execR f (.whileLoop cond lines bs be ret) st₂
    else .ok (st₁, ret)
  -- _exec_do_block
  | f + 1, .doBlk lines i e, st =>
    let line := sTrim ((lines.get? i).getD "")
    let uline := sUpper line
    if sStartsWith uline "DO WHILE" then
      let condText := sTrim (sDrop line 8)
      let (j, depth) := scanDoPre lines e (i + 1)
      if depth ≠ 0 then .ok (st.report "[VB] Warning: unmatched Do/Loop", j)
      else execR f (.whileLoop condText lines (i + 1) (j - 1) j) st
    else
      match scanDoPost lines e (i + 1) with
      | none => .ok (st.report "[VB] Warning: unmatched Do/Loop", e)
      | some loopIdx =>
        let loopLine := sTrim ((lines.get? loopIdx).getD "")
        let uloop := sUpper loopLine
        let (condText, st₁) :=
          if sStartsWith uloop "LOOP WHILE" then (sTrim (sDrop loopLine 10), st)
          else ("False", st.report "[VB] Only 'Loop While <cond>' supported (post-test)")
        execR f (.doPost condText lines (i + 1) loopIdx (loopIdx + 1)) st₁
  -- `while True: run_lines(...); if not cond: break`
  | f + 1, .doPost cond lines bs be ret, st => do
    let (st₁, _) ← execR f (.lines lines bs be) st
    let (b, st₂) ← evalCondition f cond st₁
    if b then execR f (.doPost cond lines bs be ret) st₂
    else .ok (st₂, ret)

/-- `VBInterpreter.run_lines`. -/
def runLines (f : Nat) (lines : List String) (s e : Nat) (st : VBState) : Except VBErr VBState :=
  (execR f (.lines lines s e) st).map (·.1)

/-- `VBInterpreter._exec_if_block` (resuming index in the answer). -/
def execIfBlock (f : Nat) (lines : List String) (i e : Nat) (st : VBState) :
    Except VBErr (VBState × Nat) :=
  execR f (.ifBlk lines i e) st

/-- `VBInterpreter._exec_do_block`. -/
def execDoBlock (f : Nat) (lines : List String) (i e : Nat) (st : VBState) :
    Except VBErr (VBState × Nat) :=
  execR f (.doBlk lines i e) st

/-- `VBInterpreter.call_sub` over a given program store (`not lines` is
    true for a missing name and for an empty body alike). -/
def callSub (f : Nat) (procs : List (String × List String)) (name : String) (st : VBState) :
    Except VBErr VBState :=
  match getKey procs name with
  | none => .ok st
  | some lines =>
    if lines.isEmpty then .ok st
    else runLines f lines 0 lines.length st

/-- `VBInterpreter.call_function`. -/
def callFunction (f : Nat) (funcs : List (String × List String)) (name : String) (st : VBState) :
    Except VBErr (JValue × VBState) :=
  match getKey funcs name with
  | none => .ok (.null, st.report ("[VB] Function " ++ name ++ " not found"))
  | some lines =>
    if lines.isEmpty then .ok (.null, st.report ("[VB] Function " ++ name ++ " not found"))
    else do
      let st₁ := st.setVar name .null
      let st₂ ← runLines f lines 0 lines.length st₁
      .ok (st₂.getVar name, st₂)

/-! ## Reference-semantics model of `json_new` / `copy.deepcopy`

    The value-level `jsonNew` above cannot express Python object identity,
    so the frame properties of `json_new` are proved over an explicit
    heap: nodes live at `Nat` addresses, `copyH` is `copy.deepcopy`
    (allocating only fresh addresses; the schema literals contain no
    shared substructure, so the deepcopy memo never fires), and in-place
    mutation is `List.set` at an address. -/

inductive HScalar
  | null
  | bool (b : Bool)
  | int (n : Int)
  | float (q : Frac)
  | str (s : String)
deriving DecidableEq, Repr

def HScalar.toJValue : HScalar → JValue
  | .null => .null
  | .bool b => .bool b
  | .int n => .int n
  | .float q => .float q
  | .str s => .str s

inductive HNode
  | scalar (v : HScalar)
  | dict (fields : List (String × Nat))
  | arr (items : List Nat)
deriving DecidableEq, Repr

abbrev Heap := List HNode

/-- The addresses a node points to. -/
def HNode.refs : HNode → List Nat
  | .scalar _ => []
  | .dict fs => fs.map (·.2)
  | .arr rs => rs

/-- Sequence a list of optional results. -/
def seqOption {α : Type} : List (Option α) → Option (List α)
  | [] => some []
  | none :: _ => none
  | some a :: rest => (seqOption rest).map (a :: ·)

/-- The structural value stored at an address (fuel bounds the depth). -/
def denoteH : Nat → Heap → Nat → Option JValue
  | 0, _, _ => none
  | f + 1, h, a =>
    match h.get? a with
    | none => none
    | some (.scalar v) => some v.toJValue
    | some (.dict fs) =>
      (seqOption (fs.map (fun kr => (denoteH f h kr.2).map (fun v => (kr.1, v))))).map .obj
    | some (.arr rs) =>
      (seqOption (rs.map (fun r => denoteH f h r))).map .arr

/-- `copy.deepcopy`: children first, then the copied node, all at fresh
    addresses (the heap only ever grows by appending). -/
def copyH : Nat → Heap → Nat → Option (Heap × Nat)
  | 0, _, _ => none
  | f + 1, h, a =>
    match h.get? a with
    | none => none
    | some (.scalar v) => some (h ++ [.scalar v], h.length)
    | some (.dict fs) => do
      let (h', fs') ← fs.foldlM (fun (p : Heap × List (String × Nat)) kr => do
        let (h₁, r') ← copyH f p.1 kr.2
        some (h₁, p.2 ++ [(kr.1, r')])) (h, ([] : List (String × Nat)))
      some (h' ++ [.dict fs'], h'.length)
    | some (.arr rs) => do
      let (h', rs') ← rs.foldlM (fun (p : Heap × List Nat) r => do
        let (h₁, r') ← copyH f p.1 r
        some (h₁, p.2 ++ [r'])) (h, ([] : List Nat))
      some (h' ++ [.arr rs'], h'.length)

/-- The module-load heap holding the two schema templates of
    `VBJsonRuntime.SCHEMAS` (`Root` in its overridden accounting form). -/
def schemaHeap : Heap := [
  .arr [],                    -- 0: Root.ledger.accounts
  .arr [],                    -- 1: Root.ledger.assetTypes
  .arr [],                    -- 2: Root.ledger.batches
  .arr [],                    -- 3: Root.ledger.journals
  .arr [],                    -- 4: Root.ledger.postings
  .scalar (.str ""),          -- 5: Root.ledger.postingsText
  .dict [("accounts", 0), ("assetTypes", 1), ("batches", 2),
         ("journals", 3), ("postings", 4), ("postingsText", 5)],  -- 6: Root.ledger
  .scalar (.int 1),           -- 7..11: Root.meta counters
  .scalar (.int 1),
  .scalar (.int 1),
  .scalar (.int 1),
  .scalar (.int 1),
  .dict [("nextAccountId", 7), ("nextAssetTypeId", 8), ("nextBatchId", 9),
         ("nextJournalId", 10), ("nextPostingSeq", 11)],          -- 12: Root.meta
  .dict [("ledger", 6), ("meta", 12)],                            -- 13: Root template
  .scalar (.str ""),          -- 14: Customer.name
  .scalar (.int 0),           -- 15: Customer.age
  .dict [("name", 14), ("age", 15)]]                              -- 16: Customer template

/-- `SCHEMAS.get(type_name)` at the address level. -/
def schemaAddr (typeNm : String) : Option Nat :=
  if typeNm = "Root" then some 13
  else if typeNm = "Customer" then some 16
  else none

/-- `json_new` over the heap: deep copy of the template, or a fresh empty
    dict for an unknown schema name. -/
def jsonNewH (h : Heap) (typeNm : String) : Option (Heap × Nat) :=
  match schemaAddr typeNm with
  | none => some (h ++ [.dict []], h.length)
  | some a => copyH (h.length + 1) h a

/-- Every node at an address below `n` points only below `n`. -/
def closedUptoB (h : Heap) (n : Nat) : Bool :=
  (List.range n).all (fun a =>
    match h.get? a with
    | some nd => nd.refs.all (· < n)
    | none => true)

/-- The heap after one `json_new("Customer")` on the schema heap. -/
def custHeap1 : Heap :=
  schemaHeap ++ [.scalar (.str ""), .scalar (.int 0), .dict [("name", 17), ("age", 18)]]

/-- The heap after a second `json_new("Customer")`. -/
def custHeap2 : Heap :=
  custHeap1 ++ [.scalar (.str ""), .scalar (.int 0), .dict [("name", 20), ("age", 21)]]

/-! ## Theorems -/

/-- Nodes below a closed bound only reference addresses below it. -/
theorem closed_ref {h : Heap} {n : Nat} (hcl : closedUptoB h n = true) :
    ∀ a, a < n → ∀ nd, h.get? a = some nd → ∀ r ∈ nd.refs, r < n := by
  intro a ha nd hnd r hr
  have h1 := List.all_eq_true.mp hcl a (List.mem_range.mpr ha)
  rw [hnd] at h1
  have h2 := List.all_eq_true.mp h1 r hr
  exact of_decide_eq_true h2

/-- Frame lemma: the denotation of an address below a closed bound only
    depends on the heap cells below that bound. -/
theorem denoteH_frame : ∀ (f : Nat) (h h' : Heap) (n : Nat),
    closedUptoB h n = true → (∀ b, b < n → h'.get? b = h.get? b) →
    ∀ a, a < n → denoteH f h' a = denoteH f h a := by
  intro f
  induction f with
  | zero => intro h h' n _ _ a _; rfl
  | succ f ih =>
    intro h h' n hcl hag a ha
    have hget : h'.get? a = h.get? a := hag a ha
    simp only [denoteH, hget]
    cases hnd : h.get? a with
    | none => rfl
    | some nd =>
      cases nd with
      | scalar v => rfl
      | dict fs =>
        have hm : fs.map (fun kr => (denoteH f h' kr.2).map (fun v => (kr.1, v))) =
                  fs.map (fun kr => (denoteH f h kr.2).map (fun v => (kr.1, v))) := by
          apply List.map_congr_left
          intro kr hkr
          have hlt : kr.2 < n := closed_ref hcl a ha _ hnd kr.2
            (show kr.2 ∈ (HNode.dict fs).refs from List.mem_map_of_mem _ hkr)
          rw [ih h h' n hcl hag kr.2 hlt]
        dsimp only
        rw [hm]
      | arr rs =>
        have hm : rs.map (fun r => denoteH f h' r) = rs.map (fun r => denoteH f h r) := by
          apply List.map_congr_left
          intro r hkr
          have hlt : r < n := closed_ref hcl a ha _ hnd r
            (show r ∈ (HNode.arr rs).refs from hkr)
          rw [ih h h' n hcl hag r hlt]
        dsimp only
        rw [hm]

/-- The skip step of the condition-operator scan: characters that are not
    `= < >` are passed over unchanged. -/
theorem findRelOp_append (l : List Char) (hl : ∀ c ∈ l, c ≠ '=' ∧ c ≠ '<' ∧ c ≠ '>')
    (rest : List Char) :
    findRelOp (l ++ rest) = (findRelOp rest).map (fun p => (l ++ p.1, p.2.1, p.2.2)) := by
  induction l with
  | nil =>
    cases h : findRelOp rest <;> simp [h]
  | cons c cs ih =>
    have hc := hl c (by simp)
    simp only [List.cons_append, findRelOp]
    rw [if_neg hc.1, if_neg hc.2.1, if_neg hc.2.2]
    rw [List.append_eq, ih (fun c' hc' => hl c' (List.mem_cons_of_mem _ hc'))]
    cases h : findRelOp rest with
    | none => rfl
    | some p => simp

/-- C1: the claim says every scripting-level fault is caught at the
    statement boundary and in particular a JsonSet type-mismatch fault
    never escapes `call_sub`.  It is false: `json_set` raises a
    `TypeError` on the path `a[0]` over a dict, `exec_call` has no
    handler around it, and the fault propagates out of `call_sub`. -/
theorem c1_counterexample :
    callSub 20 [("Demo", ["JsonSet x, \"a[0]\", 1"])] "Demo" ⟨[("x", .obj [])], []⟩ =
      .error (.pyExn "JsonSet: trying to index non-list with [0], got dict") := rfl

/-- C1 (amended): the `JsonSet` statement propagates every `json_set`
    fault out of `exec_call` (the write-back happens only on success),
    and a `JsonGet` fault raised during expression evaluation likewise
    escapes `run_lines`, `call_sub` and `call_function` uncaught. -/
theorem c1_amended :
    (∀ st : VBState, execCall 9 "JsonSet x, \"a[0]\", 1" st =
      match jsonSet (st.getVar "x") "a[0]" (.int 1) with
      | .error m => .error (.pyExn m)
      | .ok t => .ok (st.setVar "x" t)) ∧
    (callSub 20 [("Demo", ["y = JsonGet(x, \"zz\")"])] "Demo" ⟨[("x", .obj [])], []⟩ =
      .error (.pyExn "KeyError: 'zz'")) ∧
    (callFunction 20 [("G", ["y = JsonGet(x, \"zz\")"])] "G" ⟨[("x", .obj [])], []⟩ =
      .error (.pyExn "KeyError: 'zz'")) :=
  ⟨fun _ => rfl, rfl, rfl⟩

/-- C2: the claim says `json_set(tree, "a.b[0].c", v)` on a fresh empty
    mapping creates the needed intermediate nodes and round-trips with
    `json_get`.  It is false: intermediate creation only makes dict
    nodes, so the index segment `[0]` hits a fresh dict and `json_set`
    raises a `TypeError` instead of storing `v`. -/
theorem c2_counterexample :
    jsonSet (.obj []) "a.b[0].c" (.int 7) =
      .error "JsonSet: trying to index non-list with [0], got dict" := rfl

/-- C2 (amended): on a fresh empty mapping the set/get round-trip holds
    for a pure key path such as `a.b.c`; a path with an index segment
    over freshly created intermediates (`a.b[0].c`) fails with a type
    error, and the same indexed path round-trips once the list node with
    an in-range element already exists. -/
theorem c2_amended :
    (∀ v : JValue,
      (do
        let t ← jsonSet (.obj []) "a.b.c" v
        jsonGet t "a.b.c") = Except.ok v) ∧
    (∀ v : JValue, jsonSet (.obj []) "a.b[0].c" v =
      .error "JsonSet: trying to index non-list with [0], got dict") ∧
    (∀ v : JValue,
      (do
        let t ← jsonSet (.obj [("a", .obj [("b", .arr [.obj []])])]) "a.b[0].c" v
        jsonGet t "a.b[0].c") = Except.ok v) :=
  ⟨fun _ => rfl, fun _ => rfl, fun _ => rfl⟩

/-- C3: the claim says an expression of quoted literals joined by `&`
    concatenates the decoded segments and that the fully-quoted fast path
    applies only to a single quoted literal.  It is false: the fast path
    fires on any expression that starts and ends with a quote, so
    `"3" & "+"` is returned as the raw text between the outer quotes
    rather than the concatenation `3+`. -/
theorem c3_counterexample :
    evalExpr 9 "\"3\" & \"+\"" st0 = .ok (.str "3\" & \"+", st0) ∧
    ("3\" & \"+" : String) ≠ "3+" :=
  ⟨rfl, by decide⟩

/-- C3 (amended): the fully-quoted fast path fires whenever the trimmed
    expression starts AND ends with a double quote — hence also on
    several quoted literals joined by `&`, which are therefore handed to
    `eval_atom` whole (no arithmetic, no concatenation); splitting on `&`
    with atom-wise concatenation happens exactly when the expression
    contains `&` and does not both start and end with a quote. -/
theorem c3_amended :
    (∀ (f : Nat) (st : VBState) (e : String),
      sTrim e ≠ "" →
      sStartsWith (sTrim e) "\"" = true →
      sEndsWith (sTrim e) "\"" = true →
      evalExpr (f + 1) e st = evalAtom f (sTrim e) st) ∧
    (∀ (f : Nat) (st : VBState) (e : String),
      sTrim e ≠ "" →
      ¬(sStartsWith (sTrim e) "\"" = true ∧ sEndsWith (sTrim e) "\"" = true) →
      sContains (sTrim e) "&" = true →
      evalExpr (f + 1) e st =
        match evalE f (.atoms ((sSplit (sTrim e) "&").map sTrim)) st with
        | .ok (vs, st₁) => .ok (.str (String.join (vs.map concatPiece)), st₁)
        | .error er => .error er) ∧
    (evalExpr 9 "\"3\" & \"+\" & x" st0 = .ok (.str "3+", st0)) := by
  refine ⟨?_, ?_, rfl⟩
  · intro f st e h1 h2 h3
    simp only [evalExpr, evalAtom, evalE]
    rw [if_neg h1, if_pos ⟨h2, h3⟩]
  · intro f st e h1 h2 h3
    simp only [evalExpr, evalE]
    rw [if_neg h1, if_neg h2, if_pos h3]
    cases hr : evalE f (.atoms ((sSplit (sTrim e) "&").map sTrim)) st with
    | error er => simp [bind, Except.bind, Except.map]
    | ok p => cases p with
      | mk vs st₁ => simp [bind, Except.bind, Except.map]

/-- C4: the claim says division by zero yields `0.0` (`5/0` yields the
    float `0.0`).  It is false on the code: the zero float is immediately
    re-normalized by the no-fractional-part rule, so `5/0` evaluates to
    the Integer `0`, a value observably different from `0.0`. -/
theorem c4_counterexample :
    evalExpr 9 "5/0" st0 = .ok (.int 0, st0) ∧
    JValue.int 0 ≠ JValue.float ⟨0, 1⟩ ∧
    pyStr (.int 0) = "0" ∧ pyStr (.float ⟨0, 1⟩) = "0.0" :=
  ⟨rfl, fun h => JValue.noConfusion h, rfl, rfl⟩

/-- C4 (amended): the single-operator arithmetic branch evaluates both
    operand texts as atoms, coerces with `float(...)` (non-numeric
    operands become `0.0`), applies the operator, and returns an Integer
    when the result has no fractional part; `3+4` yields Integer `7`,
    `3.5+0.5` yields Integer `4`, and `5/0` yields the zero float which
    normalizes to Integer `0` rather than failing. -/
theorem c4_amended :
    (evalExpr 9 "3+4" st0 = .ok (.int 7, st0)) ∧
    (evalExpr 9 "3.5+0.5" st0 = .ok (.int 4, st0)) ∧
    (evalExpr 9 "5/0" st0 = .ok (.int 0, st0)) ∧
    (arithResult '/' (.int 5) (.int 0) = .int 0) ∧
    (arithResult '+' (.str "abc") (.int 2) = .int 2) ∧
    (∀ (f : Nat) (st : VBState) (e : String) (lcs rcs : List Char) (op : Char),
      sTrim e ≠ "" →
      ¬(sStartsWith (sTrim e) "\"" = true ∧ sEndsWith (sTrim e) "\"" = true) →
      sContains (sTrim e) "&" = false →
      findArithOp (sTrim e).data = some (lcs, op, rcs) →
      sTrim ⟨lcs⟩ ≠ "" →
      sTrim ⟨rcs⟩ ≠ "" →
      evalExpr (f + 1) e st =
        match evalAtom f (sTrim ⟨lcs⟩) st with
        | .ok (lv, st₁) =>
          (match evalAtom f (sTrim ⟨rcs⟩) st₁ with
           | .ok (rv, st₂) => .ok (arithResult op lv rv, st₂)
           | .error er => .error er)
        | .error er => .error er) := by
  refine ⟨rfl, rfl, rfl, rfl, rfl, ?_⟩
  intro f st e lcs rcs op h1 h2 h3 h4 h5 h6
  simp only [evalExpr, evalAtom, evalE]
  rw [if_neg h1, if_neg h2]
  rw [if_neg (show ¬(sContains (sTrim e) "&" = true) from by simp [h3])]
  rw [h4]
  dsimp only
  rw [if_pos ⟨h5, h6⟩]
  cases hl : evalE f (.atom (sTrim ⟨lcs⟩)) st with
  | error er => simp [bind, Except.bind, Except.map]
  | ok p =>
    cases p with
    | mk lvs st₁ =>
      cases hr : evalE f (.atom (sTrim ⟨rcs⟩)) st₁ with
      | error er => simp [bind, Except.bind, Except.map, hl, hr]
      | ok q =>
        cases q with
        | mk rvs st₂ => simp [bind, Except.bind, Except.map, hl, hr]

/-- C5: condition evaluation finds the first relational operator scanning
    left to right with the two-character operators `<=`, `>=`, `<>` taken
    as units; both sides are full expressions; a condition whose sides
    both parse as numbers compares numerically (`"10" > "9"` is true even
    though the raw string comparison says otherwise); a comparison that
    raises a type error is reported and yields false. -/
theorem c5_condition_eval :
    (∀ l r : List Char, (∀ c ∈ l, c ≠ '=' ∧ c ≠ '<' ∧ c ≠ '>') →
      findRelOp (l ++ '<' :: '=' :: r) = some (l, .le, r)) ∧
    (∀ l r : List Char, (∀ c ∈ l, c ≠ '=' ∧ c ≠ '<' ∧ c ≠ '>') →
      findRelOp (l ++ '>' :: '=' :: r) = some (l, .ge, r)) ∧
    (∀ l r : List Char, (∀ c ∈ l, c ≠ '=' ∧ c ≠ '<' ∧ c ≠ '>') →
      findRelOp (l ++ '<' :: '>' :: r) = some (l, .ne, r)) ∧
    (evalCondition 9 "\"10\" > \"9\"" st0 = .ok (true, st0)) ∧
    (pyCompare 1 .gt (.str "10") (.str "9") = .ok false) ∧
    (evalCondition 9 "x < 1" st0 =
      .ok (false, st0.report
        "[VB] Error comparing values in If: '<' not supported between instances of 'NoneType' and 'int'")) ∧
    (evalCondition 9 "1 <= 1" st0 = .ok (true, st0)) ∧
    (evalCondition 9 "2 <> 2" st0 = .ok (false, st0)) := by
  refine ⟨?_, ?_, ?_, rfl, rfl, rfl, rfl, rfl⟩ <;>
    · intro l r hl
      rw [findRelOp_append l hl]
      simp [findRelOp]

/-- C6: for a well-formed If block, exactly one of the Then-range and the
    Else-range executes — the Then-range `[i+1, else)` when the condition
    holds, the Else-range `(else, endIf)` otherwise, never both and never
    neither when an Else is present — `End If` matches its nearest
    unmatched opener by depth counting, and control resumes at the line
    after the matched `End If` (`endIf + 1`). -/
theorem c6_if_block :
    (∀ (f : Nat) (lines : List String) (i e : Nat) (st st₁ : VBState) (j ei : Nat) (b : Bool),
      scanIf lines e (i + 1) = (j, 0, some ei) →
      evalCondition f (ifCondText ((lines.get? i).getD "")) st = .ok (b, st₁) →
      execIfBlock (f + 1) lines i e st =
        if b then (execR f (.lines lines (i + 1) ei) st₁).map (fun p => (p.1, (j - 1) + 1))
        else (execR f (.lines lines (ei + 1) (j - 1)) st₁).map (fun p => (p.1, (j - 1) + 1))) ∧
    (∀ (f : Nat) (lines : List String) (i e : Nat) (st st₁ : VBState) (j : Nat) (b : Bool),
      scanIf lines e (i + 1) = (j, 0, none) →
      evalCondition f (ifCondText ((lines.get? i).getD "")) st = .ok (b, st₁) →
      execIfBlock (f + 1) lines i e st =
        if b then (execR f (.lines lines (i + 1) (j - 1)) st₁).map (fun p => (p.1, (j - 1) + 1))
        else .ok (st₁, (j - 1) + 1)) ∧
    (callSub 30 [("D", ["If x = 1 Then", "y = 1", "Else", "z = 2", "End If"])] "D"
        ⟨[("x", .int 1)], []⟩ = .ok ⟨[("x", .int 1), ("y", .int 1)], []⟩) ∧
    (callSub 30 [("D", ["If x = 1 Then", "y = 1", "Else", "z = 2", "End If"])] "D"
        ⟨[("x", .int 2)], []⟩ = .ok ⟨[("x", .int 2), ("z", .int 2)], []⟩) ∧
    (callSub 40 [("D", ["If a = 1 Then", "If b = 1 Then", "t = 1", "End If", "u = 2",
        "Else", "w = 3", "End If", "r = 9"])] "D" ⟨[("a", .int 1), ("b", .int 0)], []⟩ =
      .ok ⟨[("a", .int 1), ("b", .int 0), ("u", .int 2), ("r", .int 9)], []⟩) := by
  refine ⟨?_, ?_, rfl, rfl, rfl⟩
  · intro f lines i e st st₁ j ei b hscan hcond
    simp only [execIfBlock, execR, hscan, hcond]
    cases b with
    | false =>
      cases hrun : execR f (.lines lines (ei + 1) (j - 1)) st₁ <;>
        simp [bind, Except.bind, Except.map, hrun]
    | true =>
      cases hrun : execR f (.lines lines (i + 1) ei) st₁ <;>
        simp [bind, Except.bind, Except.map, hrun]
  · intro f lines i e st st₁ j b hscan hcond
    simp only [execIfBlock, execR, hscan, hcond]
    cases b with
    | false => simp [bind, Except.bind]
    | true =>
      cases hrun : execR f (.lines lines (i + 1) (j - 1)) st₁ <;>
        simp [bind, Except.bind, Except.map, hrun]

/-- C7: `Do While cond … Loop` is pre-test (zero body passes when the
    condition is initially false), `Do … Loop While cond` is post-test
    (exactly one pass when the condition is false after the first pass),
    and any other `Loop` footer is reported and runs with the condition
    text `False`, which in an ordinary context (the name `False` reads as
    None) evaluates to false: a single pass then stop, not a crash. -/
theorem c7_do_loops :
    (∀ (f : Nat) (cond : String) (lines : List String) (bs be ret : Nat) (st st₁ : VBState),
      evalCondition f cond st = .ok (false, st₁) →
      execR (f + 1) (.whileLoop cond lines bs be ret) st = .ok (st₁, ret)) ∧
    (∀ (f : Nat) (cond : String) (lines : List String) (bs be ret n : Nat) (st st₁ st₂ : VBState),
      execR f (.lines lines bs be) st = .ok (st₁, n) →
      evalCondition f cond st₁ = .ok (false, st₂) →
      execR (f + 1) (.doPost cond lines bs be ret) st = .ok (st₂, ret)) ∧
    (∀ (f : Nat) (lines : List String) (i e : Nat) (st : VBState) (loopIdx : Nat),
      sStartsWith (sUpper (sTrim ((lines.get? i).getD ""))) "DO WHILE" = false →
      scanDoPost lines e (i + 1) = some loopIdx →
      sStartsWith (sUpper (sTrim ((lines.get? loopIdx).getD ""))) "LOOP WHILE" = false →
      execDoBlock (f + 1) lines i e st =
        execR f (.doPost "False" lines (i + 1) loopIdx (loopIdx + 1))
          (st.report "[VB] Only 'Loop While <cond>' supported (post-test)")) ∧
    (∀ (st : VBState) (f : Nat),
      evalCondition (f + 2) "False" st = .ok (pyTruthy (st.getVar "False"), st)) ∧
    (pyTruthy .null = false) ∧
    (callSub 30 [("D", ["Do While x > 5", "i = i + 1", "Loop"])] "D"
        ⟨[("x", .int 0), ("i", .int 0)], []⟩ = .ok ⟨[("x", .int 0), ("i", .int 0)], []⟩) ∧
    (callSub 30 [("D", ["Do", "i = i + 1", "Loop While x > 5"])] "D"
        ⟨[("x", .int 0), ("i", .int 0)], []⟩ = .ok ⟨[("x", .int 0), ("i", .int 1)], []⟩) ∧
    (callSub 30 [("D", ["Do", "i = i + 1", "Loop Until x > 5"])] "D"
        ⟨[("x", .int 0), ("i", .int 0)], []⟩ =
      .ok ⟨[("x", .int 0), ("i", .int 1)],
           ["[VB] Only 'Loop While <cond>' supported (post-test)"]⟩) := by
  refine ⟨?_, ?_, ?_, fun _ _ => rfl, rfl, rfl, rfl, rfl⟩
  · intro f cond lines bs be ret st st₁ h
    simp only [execR, h]; rfl
  · intro f cond lines bs be ret n st st₁ st₂ h1 h2
    simp only [execR, h1, bind, Except.bind, h2]; rfl
  · intro f lines i e st loopIdx hdr hscan hfoot
    simp only [execDoBlock, execR]
    rw [if_neg (fun h => by rw [hdr] at h; exact Bool.noConfusion h), hscan]
    dsimp only
    rw [if_neg (fun h => by rw [hfoot] at h; exact Bool.noConfusion h)]

/-- C8: calling a Function initializes the Context slot named after the
    function to null before the body and returns that slot's value after
    the body (assignment to the function name is the only return
    mechanism); an unknown (or empty-bodied) Sub is a no-op; an unknown
    (or empty-bodied) Function is reported and yields null without
    raising. -/
theorem c8_procedure_calls :
    (∀ (f : Nat) (procs : List (String × List String)) (name : String) (st : VBState),
      getKey procs name = none → callSub f procs name st = .ok st) ∧
    (∀ (f : Nat) (procs : List (String × List String)) (name : String) (st : VBState),
      getKey procs name = some [] → callSub f procs name st = .ok st) ∧
    (∀ (f : Nat) (funcs : List (String × List String)) (name : String) (st : VBState),
      getKey funcs name = none →
      callFunction f funcs name st =
        .ok (.null, st.report ("[VB] Function " ++ name ++ " not found"))) ∧
    (∀ (f : Nat) (funcs : List (String × List String)) (name : String) (st : VBState),
      getKey funcs name = some [] →
      callFunction f funcs name st =
        .ok (.null, st.report ("[VB] Function " ++ name ++ " not found"))) ∧
    (∀ (f : Nat) (funcs : List (String × List String)) (name : String) (st : VBState)
        (body : List String),
      getKey funcs name = some body → body ≠ [] →
      callFunction f funcs name st =
        match runLines f body 0 body.length (st.setVar name .null) with
        | .ok st₂ => .ok (st₂.getVar name, st₂)
        | .error e => .error e) ∧
    (callFunction 20 [("F", ["F = 42"])] "F" st0 = .ok (.int 42, ⟨[("F", .int 42)], []⟩)) ∧
    (callFunction 20 [] "Missing" st0 =
      .ok (.null, st0.report "[VB] Function Missing not found")) ∧
    (callSub 20 [] "Missing" st0 = .ok st0) := by
  refine ⟨?_, ?_, ?_, ?_, ?_, rfl, rfl, rfl⟩
  · intro f procs name st h; simp only [callSub, h]
  · intro f procs name st h; simp only [callSub, h]; rfl
  · intro f funcs name st h; simp only [callFunction, h]
  · intro f funcs name st h; simp only [callFunction, h]; rfl
  · intro f funcs name st body h hne
    simp only [callFunction, h]
    rw [if_neg (by simp [hne])]
    cases hr : runLines f body 0 body.length (st.setVar name .null) <;>
      simp [bind, Except.bind, hr]

/-- C9: `json_new` deep-copies the stored schema template (and returns a
    fresh empty mapping for an unknown name): each copy denotes the same
    structural value as the template, every copy lives at fresh addresses
    beyond the template heap, mutating any such fresh address never
    changes the template's denotation, and two copies of the same schema
    are structurally equal yet share no mutable cell (mutating the second
    never changes the first). -/
theorem c9_jsonnew_frame :
    (jsonNewH schemaHeap "Customer" = some (custHeap1, 19)) ∧
    (jsonNewH custHeap1 "Customer" = some (custHeap2, 22)) ∧
    (jsonNewH schemaHeap "Nope" = some (schemaHeap ++ [.dict []], 17)) ∧
    (denoteH 3 custHeap2 19 = some customerSchema ∧
     denoteH 3 custHeap2 22 = some customerSchema ∧
     denoteH 3 custHeap2 16 = some customerSchema ∧
     jsonNew "Customer" = customerSchema) ∧
    (schemaHeap.length = 17 ∧ custHeap1.length = 20 ∧ custHeap2.length = 23) ∧
    (∀ (b : Nat) (nd : HNode), 17 ≤ b →
      denoteH 3 (custHeap2.set b nd) 16 = denoteH 3 custHeap2 16) ∧
    (∀ (b : Nat) (nd : HNode), 20 ≤ b →
      denoteH 3 (custHeap2.set b nd) 19 = denoteH 3 custHeap2 19) := by
  refine ⟨rfl, rfl, rfl, ⟨rfl, rfl, rfl, rfl⟩, ⟨rfl, rfl, rfl⟩, ?_, ?_⟩
  · intro b nd hb
    exact denoteH_frame 3 custHeap2 (custHeap2.set b nd) 17 (by decide)
      (fun c hc => List.get?_set_ne nd custHeap2 (by omega)) 16 (by decide)
  · intro b nd hb
    exact denoteH_frame 3 custHeap2 (custHeap2.set b nd) 20 (by decide)
      (fun c hc => List.get?_set_ne nd custHeap2 (by omega)) 19 (by decide)

/-- C9 witness: mutating a cell of the first copy (address 18) does not
    change the denotation of the stored Customer template. -/
theorem c9_jsonnew_frame_witness :
    (17 ≤ 18) ∧ denoteH 3 (custHeap2.set 18 (.dict [])) 16 = denoteH 3 custHeap2 16 :=
  ⟨by decide, c9_jsonnew_frame.2.2.2.2.2.1 18 (.dict []) (by decide)⟩

/-- C10: the claim says a line whose every `=` lies inside a string
    literal is always executed as a call statement.  It is false for a
    line that begins with the keyword `Dim`: `Dim "="` takes the
    declaration branch (binding a variable named `"="`), not the call
    branch (which would report an unknown statement). -/
theorem c10_counterexample :
    execLine 9 "Dim \"=\"" st0 = .ok (⟨[("\"=\"", .null)], []⟩ : VBState) ∧
    execCall 9 "Dim \"=\"" st0 = .ok (st0.report "[VB] Unknown statement: Dim \"=\"") ∧
    (⟨[("\"=\"", .null)], []⟩ : VBState) ≠ st0.report "[VB] Unknown statement: Dim \"=\"" :=
  ⟨rfl, rfl, fun h => List.noConfusion (congrArg VBState.vars h)⟩

/-- C10 (amended): a line is executed as an assignment only when it has
    an `=` outside every string literal (tracked by toggling on unescaped
    double quotes) and starts with neither `If` nor `Dim`; a line whose
    every `=` lies inside a string literal is executed as a call
    statement unless it begins with `Dim` (the declaration branch runs
    first), and never as an assignment. -/
theorem c10_amended :
    (∀ (f : Nat) (line : String) (st : VBState) (i : Nat),
      sContains line "=" = true →
      findAssignEq line = some i →
      sStartsWith (sUpper line) "IF " = false →
      sStartsWith (sUpper line) "DIM " = false →
      execLine f line st =
        match evalExpr f (sTrim (sDrop line (i + 1))) st with
        | .ok (v, st₁) => .ok (assign st₁ (sTrim (sTake line i)) v)
        | .error e => .error e) ∧
    (∀ (f : Nat) (line : String) (st : VBState),
      findAssignEq line = none →
      sStartsWith (sUpper line) "DIM " = false →
      execLine f line st = execCall f line st) ∧
    (findAssignEq "lstPostings.Add \"New journal created: ID=\" & x" = none) ∧
    (execLine 9 "lstPostings.Add \"New journal created: ID=\" & x" st0 =
      .ok (st0.report "[VB] Method call on unknown object: lstPostings")) ∧
    (findAssignEq "x = 1" = some 2) ∧
    (execLine 9 "x = 1" st0 = .ok (⟨[("x", .int 1)], []⟩ : VBState)) := by
  refine ⟨?_, ?_, rfl, rfl, rfl, rfl⟩
  · intro f line st i hc hi hif hdim
    simp only [execLine]
    rw [if_neg (fun h => by rw [hdim] at h; exact Bool.noConfusion h)]
    rw [if_pos hc, hi]
    dsimp only
    rw [if_neg (fun h => by rw [hif] at h; exact Bool.noConfusion h)]
    cases hr : evalExpr f (sTrim (sDrop line (i + 1))) st with
    | error e => simp [bind, Except.bind, hr]
    | ok p => cases p with
      | mk v st₁ => simp [bind, Except.bind, hr]
  · intro f line st hno hdim
    simp only [execLine]
    rw [if_neg (fun h => by rw [hdim] at h; exact Bool.noConfusion h)]
    cases hcont : sContains line "=" with
    | false => rw [if_neg Bool.false_ne_true]
    | true => rw [if_pos rfl, hno]

/-- C3 witness: the fast-path branch theorem applied to the single
    literal `"ab"`. -/
theorem c3_amended_witness :
    evalExpr (8 + 1) "\"ab\"" st0 = evalAtom 8 (sTrim "\"ab\"") st0 :=
  c3_amended.1 8 st0 "\"ab\"" (by decide) (by decide) (by decide)

/-- C4 witness: the arithmetic-branch theorem applied to `3+4`. -/
theorem c4_amended_witness :
    evalExpr (8 + 1) "3+4" st0 = .ok (.int 7, st0) :=
  (c4_amended.2.2.2.2.2 8 st0 "3+4" ['3'] ['4'] '+' (by decide) (by decide)
    (by decide) (by decide) (by decide) (by decide)).trans rfl

/-- C5 witness: the unit-detection theorem applied to `x <= 1`. -/
theorem c5_condition_eval_witness :
    findRelOp ("x ".data ++ '<' :: '=' :: " 1".data) = some ("x ".data, .le, " 1".data) :=
  c5_condition_eval.1 "x ".data " 1".data (by decide)

/-- C6 witness: the branch-selection theorem applied to the concrete
    If/Else block with a true condition. -/
theorem c6_if_block_witness :
    execIfBlock (8 + 1) ["If x = 1 Then", "y = 1", "Else", "z = 2", "End If"] 0 5
        ⟨[("x", .int 1)], []⟩ =
      .ok ((⟨[("x", .int 1), ("y", .int 1)], []⟩ : VBState), 5) :=
  (c6_if_block.1 8 ["If x = 1 Then", "y = 1", "Else", "z = 2", "End If"] 0 5
    ⟨[("x", .int 1)], []⟩ ⟨[("x", .int 1)], []⟩ 5 2 true (by decide) rfl).trans rfl

/-- C7 witness: the pre-test loop theorem applied to an initially false
    condition (zero body passes). -/
theorem c7_do_loops_witness :
    execR (8 + 1) (.whileLoop "x > 5" ["i = i + 1"] 1 1 2) ⟨[("x", .int 0)], []⟩ =
      .ok ((⟨[("x", .int 0)], []⟩ : VBState), 2) :=
  c7_do_loops.1 8 "x > 5" ["i = i + 1"] 1 1 2 ⟨[("x", .int 0)], []⟩ ⟨[("x", .int 0)], []⟩ rfl

/-- C8 witness: the defined-function theorem applied to `F` with body
    `F = 42`. -/
theorem c8_procedure_calls_witness :
    callFunction 7 [("F", ["F = 42"])] "F" st0 = .ok (.int 42, ⟨[("F", .int 42)], []⟩) :=
  (c8_procedure_calls.2.2.2.2.1 7 [("F", ["F = 42"])] "F" st0 ["F = 42"]
    (by decide) (by decide)).trans rfl

/-- C10 witness: the assignment-branch theorem applied to `x = 1`. -/
theorem c10_amended_witness :
    execLine 9 "x = 1" st0 = .ok (⟨[("x", .int 1)], []⟩ : VBState) :=
  (c10_amended.1 9 "x = 1" st0 2 (by decide) (by decide) (by decide) (by decide)).trans rfl

end VB6
